import Mathlib

/-!
# Application lifecycle of the job-board backend

A shallow embedding of `routes/applications.js` together with the collections it
reads and writes (`models/User.js`, `models/Job.js`, `models/Notification.js`), of the
job deletion route of `routes/jobs.js` and of the profile update route of
`routes/profile.js`.

* A collection is the list of its documents in insertion order.
* A handler is a pure function from the request and the database to the HTTP
  response and the database afterwards.
* `ObjectId`s are natural numbers. The id of a url (`:id`) is taken to be a well-formed
  id already; the `jobId` of a request body may be any JSON value (`JobIdField`).
* What a request cannot control (the clock, the id given to a new document,
  whether a write reaches the store) is the `Env` argument of a handler.
-/

namespace JobBackend

abbrev ObjectId := Nat

abbrev Date := Nat

/-! ## Documents -/

/-- User document, `userSchema` of `models/User.js`. -/
structure User where
  _id : ObjectId
  email : String
  password : String
  role : String
  name : Option String
  resume : Option String
  company : Option String
  companyDescription : Option String
  phone : Option String
  address : Option String
  linkedin : Option String
  photo : Option String
  createdAt : Date
  deriving DecidableEq, Repr

/-- Job document, `jobSchema` of `models/Job.js`. -/
structure Job where
  _id : ObjectId
  title : String
  description : String
  qualifications : String
  responsibilities : String
  location : String
  salary : Option String
  company : String
  employerId : ObjectId
  type : String
  image : Option String
  createdAt : Date
  deriving DecidableEq, Repr

/-- Modelled from the spec: the Application schema (`models/Application.js` is imported by
the routes but is not among the sources). Spec section 3: id, jobId, userId,
status in pending / accepted / rejected, appliedAt. -/
structure Application where
  _id : ObjectId
  jobId : ObjectId
  userId : ObjectId
  status : String
  appliedAt : Date
  deriving DecidableEq, Repr

/-- A value of a `Mixed` field. -/
inductive Mixed where
  | str (s : String)
  | date (d : Date)
  deriving DecidableEq, Repr

/-- Notification document, `notificationSchema` of `models/Notification.js`; `metadata`
is `Mixed`, kept as the list of its keys and values. -/
structure Notification where
  _id : ObjectId
  userId : ObjectId
  type : String
  message : String
  read : Bool
  createdAt : Date
  relatedId : ObjectId
  metadata : List (String × Mixed)
  deriving DecidableEq, Repr

/-- The four collections. -/
structure Db where
  users : List User
  jobs : List Job
  applications : List Application
  notifications : List Notification
  deriving DecidableEq, Repr

/-- Modelled from the spec: `req.user`, set by `middleware/auth.js` (not among the
sources). Spec section 6: the token resolves to userId, role, email, name. -/
structure ReqUser where
  userId : ObjectId
  role : String
  email : String
  name : Option String
  deriving DecidableEq, Repr

/-- The part of a request's outcome the request does not determine. -/
structure Env where
  /-- value of `Date.now` / `new Date()` -/
  now : Date
  /-- the `_id` of the document created by `new Application` / `new Notification` -/
  newId : ObjectId
  /-- whether `await application.save()` resolves (`true`) or rejects (`false`) -/
  applicationSave : Bool
  /-- whether `await notification.save()` resolves (`true`) or rejects (`false`) -/
  notificationSave : Bool
  deriving DecidableEq, Repr

/-- What a handler sends: `res.status(status).json(..)`, with the `message` of the json body
when it has one and the document(s) it carries when it has some. -/
structure Response (α : Type) where
  status : Nat
  message : Option String
  payload : Option α
  deriving DecidableEq, Repr

/-- Error answer, `res.status(code).json({ message })`. -/
def Response.fail {α : Type} (code : Nat) (msg : String) : Response α :=
  ⟨code, some msg, none⟩

/-- Plain answer, `res.json(doc)`, status 200. -/
def Response.json {α : Type} (doc : α) : Response α :=
  ⟨200, none, some doc⟩

/-! ## Queries -/

/-- Query `User.findById(id)`. -/
def User.findById (users : List User) (id : ObjectId) : Option User :=
  users.find? (fun u => u._id == id)

/-- Query `Job.findById(id)`. -/
def Job.findById (jobs : List Job) (id : ObjectId) : Option Job :=
  jobs.find? (fun j => j._id == id)

/-- Query `Application.findById(id)`. -/
def Application.findById (apps : List Application) (id : ObjectId) : Option Application :=
  apps.find? (fun a => a._id == id)

/-- Query `Application.findOne({ jobId, userId })`. -/
def Application.findOne (apps : List Application) (jobId userId : ObjectId) :
    Option Application :=
  apps.find? (fun a => a.jobId == jobId && a.userId == userId)

/-- An application document whose `jobId` and `userId` paths hold what the query put there:
the id, or after `populate` the referenced document (`none` for JavaScript `null`, when
the referenced document does not exist). -/
structure Populated (J U : Type) where
  _id : ObjectId
  jobId : J
  userId : U
  status : String
  appliedAt : Date
  deriving DecidableEq, Repr

/-- Population `.populate('jobId').populate('userId')`. -/
def populateAll (db : Db) (a : Application) : Populated (Option Job) (Option User) :=
  { _id := a._id
    jobId := Job.findById db.jobs a.jobId
    userId := User.findById db.users a.userId
    status := a.status
    appliedAt := a.appliedAt }

/-- The job fields selected by `populate('jobId', 'title company employerId')`. -/
structure JobRef where
  _id : ObjectId
  title : String
  company : String
  employerId : ObjectId
  deriving DecidableEq, Repr

/-- The user fields selected by
`populate('userId', 'name email phone address linkedin resume')`. -/
structure Applicant where
  _id : ObjectId
  name : Option String
  email : String
  phone : Option String
  address : Option String
  linkedin : Option String
  resume : Option String
  deriving DecidableEq, Repr

/-- The job fields selected by `populate('jobId', 'title company location type salary')`. -/
structure JobSummary where
  _id : ObjectId
  title : String
  company : String
  location : String
  type : String
  salary : Option String
  deriving DecidableEq, Repr

/-- Projection of a job on the fields of `JobRef`. -/
def Job.toRef (j : Job) : JobRef :=
  ⟨j._id, j.title, j.company, j.employerId⟩

/-- Projection of a user on the fields of `Applicant`. -/
def User.toApplicant (u : User) : Applicant :=
  ⟨u._id, u.name, u.email, u.phone, u.address, u.linkedin, u.resume⟩

/-- Projection of a job on the fields of `JobSummary`. -/
def Job.toSummary (j : Job) : JobSummary :=
  ⟨j._id, j.title, j.company, j.location, j.type, j.salary⟩

/-- Population `.populate('jobId', 'title company employerId')
.populate('userId', 'name email phone address linkedin resume')`. -/
def populateForEmployer (db : Db) (a : Application) :
    Populated (Option JobRef) (Option Applicant) :=
  { _id := a._id
    jobId := (Job.findById db.jobs a.jobId).map Job.toRef
    userId := (User.findById db.users a.userId).map User.toApplicant
    status := a.status
    appliedAt := a.appliedAt }

/-- Population `.populate('jobId', 'title company location type salary')`. -/
def populateForSeeker (db : Db) (a : Application) : Populated (Option JobSummary) ObjectId :=
  { _id := a._id
    jobId := (Job.findById db.jobs a.jobId).map Job.toSummary
    userId := a.userId
    status := a.status
    appliedAt := a.appliedAt }

/-- Sort `.sort({ appliedAt: -1 })`: latest first, documents applied at the same time in
collection order. -/
def sortByAppliedAtDesc (apps : List Application) : List Application :=
  apps.insertionSort (fun a b => b.appliedAt ≤ a.appliedAt)

/-! ## Writes -/

/-- Write `await application.save()` of a new document: it is inserted. -/
def Application.insert (apps : List Application) (doc : Application) : List Application :=
  apps ++ [doc]

/-- Write `await application.save()` of a loaded document whose `status` was assigned: the stored
document with that `_id` gets the new status. -/
def Application.saveStatus (apps : List Application) (id : ObjectId) (status : String) :
    List Application :=
  match apps with
  | [] => []
  | a :: rest =>
    if a._id = id then { a with status := status } :: rest
    else a :: Application.saveStatus rest id status

/-- Write `await notification.save()` of a new document: it is inserted. -/
def Notification.insert (ns : List Notification) (doc : Notification) : List Notification :=
  ns ++ [doc]

/-! ## `POST /api/applications` -/

/-- The `jobId` property of a request body, by what the queries make of it: `falsy` when
`!jobId` holds (absent, `null`, the empty string); `objectId` for a value that casts to
that ObjectId; `operators` for an object of query operators (as `{ $ne: null }` in a JSON
body), which a query takes as a condition on the id, here the test it makes; `malformed`
for any other value (its text kept), for which `Job.findById` rejects with a CastError. -/
inductive JobIdField where
  | falsy
  | malformed (raw : String)
  | objectId (id : ObjectId)
  | operators (selects : ObjectId → Bool)

/-- The body of `POST /api/applications`. -/
structure ApplyBody where
  jobId : JobIdField

/-- Query `Job.findById(jobId)` when `jobId` is an object of query operators: the first job
whose `_id` they select. -/
def Job.findWhere (jobs : List Job) (selects : ObjectId → Bool) : Option Job :=
  jobs.find? (fun j => selects j._id)

/-- Query `Application.findOne({ jobId, userId })` when `jobId` is an object of query
operators: the first application of the user whose `jobId` they select. -/
def Application.findOneWhere (apps : List Application) (selects : ObjectId → Bool)
    (userId : ObjectId) : Option Application :=
  apps.find? (fun a => selects a.jobId && a.userId == userId)

/-- The handler `router.post('/')`: apply for a job. A rejected query or write is caught and
answered 500; an object of query operators does not cast to the `jobId` of the new
application, so the save of that document rejects. -/
def applyForJob (env : Env) (db : Db) (user : ReqUser) (body : ApplyBody) :
    Response Application × Db :=
  if user.role ≠ "jobseeker" then
    (Response.fail 403 "Only job seekers can apply for jobs", db)
  else
    match body.jobId with
    | JobIdField.falsy => (Response.fail 400 "Job ID is required", db)
    | JobIdField.malformed _ => (Response.fail 500 "Server error", db)
    | JobIdField.objectId jobId =>
      match Job.findById db.jobs jobId with
      | none => (Response.fail 404 "Job not found", db)
      | some _ =>
        match Application.findOne db.applications jobId user.userId with
        | some _ => (Response.fail 400 "You have already applied for this job", db)
        | none =>
          let application : Application :=
            { _id := env.newId, jobId := jobId, userId := user.userId,
              status := "pending", appliedAt := env.now }
          if env.applicationSave then
            (⟨201, some "Application submitted successfully", some application⟩,
              { db with applications := Application.insert db.applications application })
          else
            (Response.fail 500 "Server error", db)
    | JobIdField.operators selects =>
      match Job.findWhere db.jobs selects with
      | none => (Response.fail 404 "Job not found", db)
      | some _ =>
        match Application.findOneWhere db.applications selects user.userId with
        | some _ => (Response.fail 400 "You have already applied for this job", db)
        | none => (Response.fail 500 "Server error", db)

/-! ## `GET /api/applications` and `GET /api/applications/my-applications` -/

/-- The handler `router.get('/')`: the applications for the employer's jobs. -/
def getApplications (db : Db) (user : ReqUser) :
    Response (List (Populated (Option JobRef) (Option Applicant))) :=
  if user.role ≠ "employer" then
    Response.fail 403 "Only employers can view applications"
  else
    let applications :=
      (sortByAppliedAtDesc (db.applications.filter (fun a => a.status ≠ "rejected"))).map
        (populateForEmployer db)
    let employerApplications := applications.filter (fun app =>
      match app.jobId with
      | none => false
      | some job => job.employerId == user.userId)
    Response.json employerApplications

/-- The handler `router.get('/my-applications')`: the seeker's own applications. -/
def getMyApplications (db : Db) (user : ReqUser) :
    Response (List (Populated (Option JobSummary) ObjectId)) :=
  if user.role ≠ "jobseeker" then
    Response.fail 403 "Only job seekers can view their applications"
  else
    let applications :=
      (sortByAppliedAtDesc (db.applications.filter (fun a => a.userId == user.userId))).map
        (populateForSeeker db)
    Response.json applications

/-! ## `PUT /api/applications/:id` -/

/-- The body of `PUT /api/applications/:id`. -/
structure StatusBody where
  status : String
  deriving DecidableEq, Repr

/-- Display name `req.user.name || req.user.email`. -/
def employerName (user : ReqUser) : String :=
  match user.name with
  | none => user.email
  | some n => if n = "" then user.email else n

/-- The notification built by `new Notification(..)` in `router.put('/:id')`. -/
def statusNotification (env : Env) (user : ReqUser) (application : Populated Job User)
    (status oldStatus : String) : Notification :=
  { _id := env.newId
    userId := application.userId._id
    type := "application_update"
    message := "Your application for \"" ++ application.jobId.title ++ "\" has been "
      ++ status ++ " by " ++ employerName user
    read := false
    createdAt := env.now
    relatedId := application._id
    metadata :=
      [("jobTitle", Mixed.str application.jobId.title),
       ("status", Mixed.str status),
       ("oldStatus", Mixed.str oldStatus),
       ("employerName", Mixed.str (employerName user)),
       ("updatedAt", Mixed.date env.now)] }

/-- The handler `router.put('/:id')`: update the status of an application. Reading a
property of `null` throws, and the `catch` answers 500. -/
def updateApplicationStatus (env : Env) (db : Db) (user : ReqUser) (id : ObjectId)
    (body : StatusBody) : Response (Populated Job User) × Db :=
  if user.role ≠ "employer" then
    (Response.fail 403 "Only employers can update applications", db)
  else if ¬ body.status ∈ ["pending", "accepted", "rejected"] then
    (Response.fail 400 "Invalid status", db)
  else
    match (Application.findById db.applications id).map (populateAll db) with
    | none => (Response.fail 404 "Application not found", db)
    | some application =>
      match application.jobId with
      | none => (Response.fail 500 "Server error", db)
      | some job =>
        if job.employerId ≠ user.userId then
          (Response.fail 403 "You can only update applications for your jobs", db)
        else
          let oldStatus := application.status
          if env.applicationSave then
            let db1 := { db with
              applications := Application.saveStatus db.applications application._id body.status }
            match application.userId with
            | none => (Response.fail 500 "Server error", db1)
            | some seeker =>
              let updated : Populated Job User :=
                { _id := application._id, jobId := job, userId := seeker,
                  status := body.status, appliedAt := application.appliedAt }
              let notification := statusNotification env user updated body.status oldStatus
              if env.notificationSave then
                (Response.json updated,
                  { db1 with notifications := Notification.insert db1.notifications notification })
              else
                (Response.fail 500 "Server error", db1)
          else
            (Response.fail 500 "Server error", db)

/-! ## `DELETE /api/jobs/:id` -/

/-- Removal `await job.deleteOne()`: the stored job with that `_id` is gone. -/
def Job.deleteOne (jobs : List Job) (id : ObjectId) : List Job :=
  jobs.eraseP (fun j => j._id == id)

/-- The handler `router.delete('/:id')` of `routes/jobs.js`: delete a job. `deleted` tells
whether `await job.deleteOne()` resolves. The applications for the job are not touched. -/
def deleteJob (deleted : Bool) (db : Db) (user : ReqUser) (id : ObjectId) :
    Response Unit × Db :=
  if user.role ≠ "employer" then
    (Response.fail 403 "Only employers can delete jobs", db)
  else
    match Job.findById db.jobs id with
    | none => (Response.fail 404 "Job not found", db)
    | some job =>
      if job.employerId ≠ user.userId then
        (Response.fail 403 "You can only delete your own jobs", db)
      else if deleted then
        (⟨200, some "Job deleted successfully", none⟩,
          { db with jobs := Job.deleteOne db.jobs job._id })
      else
        (Response.fail 500 "Server error", db)

/-! ## `PUT /api/profile` -/

/-- A value of a property of `req.body` or of `filteredUpdates`: a string, or anything else
(the array multer makes of a repeated field, the object it makes of a bracketed field
name), kept as its JSON text. Only a string casts to a String path of `userSchema`. -/
inductive FieldValue where
  | str (s : String)
  | other (json : String)
  deriving DecidableEq, Repr

/-- The object `req.body`: its properties, each key once. A field sent several times is one
key, whose value is not a string. In a request that is not multipart the values play no
part: the handler throws before it reaches the store. -/
structure Body where
  props : List (String × FieldValue)
  distinct : (props.map Prod.fst).Nodup

/-- Keys of the body, `Object.keys(updates)`. -/
def Body.keys (b : Body) : List String :=
  b.props.map Prod.fst

/-- Property read `updates[key]`; `none` is `undefined`. -/
def Body.get (b : Body) (key : String) : Option FieldValue :=
  b.props.lookup key

/-- An object that the handler builds, kept as the list of the assignments
`o[key] = value` that built it, oldest first: a later assignment to a key overrides an
earlier one. -/
abbrev Obj := List (String × FieldValue)

/-- Keys of an object, `Object.keys(o)`. -/
def Obj.keys (o : Obj) : List String :=
  (o.map Prod.fst).dedup

/-- Property read `o[key]`; `none` is `undefined`. -/
def Obj.get (o : Obj) (key : String) : Option FieldValue :=
  List.lookup key o.reverse

/-- Property write `o[key] = value`. -/
def Obj.set (o : Obj) (key : String) (value : FieldValue) : Obj :=
  o ++ [(key, value)]

/-- An uploaded file of `req.files`, with the two properties the handler reads. -/
structure File where
  fieldname : String
  filename : String
  deriving DecidableEq, Repr

/-- The `allowedUpdates` of `router.put('/')` in `routes/profile.js`, by role. -/
def allowedUpdates (role : String) : List String :=
  if role = "jobseeker" then
    ["name", "resume", "photo", "phone", "address", "linkedin"]
  else if role = "employer" then
    ["name", "company", "companyDescription", "photo", "phone", "address", "linkedin"]
  else
    []

/-- The `filteredUpdates` of `router.put('/')`: the `forEach` over the keys of the body, then
the `forEach` over the uploaded files. -/
def filteredUpdates (role : String) (updates : Body) (files : List File) : Obj :=
  let fromBody := (Body.keys updates).foldl (fun filtered key =>
    if key ∈ allowedUpdates role then
      match Body.get updates key with
      | some value => Obj.set filtered key value
      | none => filtered
    else filtered) []
  files.foldl (fun filtered file =>
    let withPhoto :=
      if file.fieldname = "photo" ∧ "photo" ∈ allowedUpdates role then
        Obj.set filtered "photo" (FieldValue.str file.filename)
      else filtered
    if file.fieldname = "resume" ∧ "resume" ∈ allowedUpdates role then
      Obj.set withPhoto "resume" (FieldValue.str file.filename)
    else withPhoto) fromBody

/-- JavaScript's `String.prototype.trim` and `toLowerCase`, which the setters `trim: true`
and `lowercase: true` of `userSchema` apply; taken as given. -/
structure StringOps where
  trim : String → String
  toLowerCase : String → String

/-- The String paths of `userSchema`. -/
def userPaths : List String :=
  ["email", "password", "role", "name", "resume", "company", "companyDescription", "phone",
    "address", "linkedin", "photo"]

/-- The update validators of `userSchema` (`runValidators: true`) for one path of an update:
`required` for email, password and role, `minlength: 6` for password, `enum` for role. -/
def User.validUpdate (ops : StringOps) (key value : String) : Bool :=
  if key = "email" then ops.toLowerCase (ops.trim value) ≠ ""
  else if key = "password" then value ≠ "" && 6 ≤ value.length
  else if key = "role" then value ∈ ["jobseeker", "employer"]
  else true

/-- Assignment of one path of an update to a user document, through the setters of
`userSchema`; a key that is not a String path of the schema is left out. -/
def User.assign (ops : StringOps) (u : User) (key value : String) : User :=
  if key = "email" then { u with email := ops.toLowerCase (ops.trim value) }
  else if key = "password" then { u with password := value }
  else if key = "role" then { u with role := value }
  else if key = "name" then { u with name := some (ops.trim value) }
  else if key = "resume" then { u with resume := some value }
  else if key = "company" then { u with company := some (ops.trim value) }
  else if key = "companyDescription" then
    { u with companyDescription := some (ops.trim value) }
  else if key = "phone" then { u with phone := some (ops.trim value) }
  else if key = "address" then { u with address := some (ops.trim value) }
  else if key = "linkedin" then { u with linkedin := some (ops.trim value) }
  else if key = "photo" then { u with photo := some value }
  else u

/-- The stored document with the `_id` of `doc` is replaced by `doc`. -/
def User.replaceOne (users : List User) (doc : User) : List User :=
  match users with
  | [] => []
  | u :: rest =>
    if u._id = doc._id then doc :: rest
    else u :: User.replaceOne rest doc

/-- Whether an update passes the casts and the validators of `userSchema`: a value that is
not a string does not cast to a String path (CastError), and a string is checked by the
validators of its path. -/
def User.accepts (ops : StringOps) (update : Obj) : Bool :=
  (Obj.keys update).all (fun key =>
    match Obj.get update key with
    | some (FieldValue.str value) => User.validUpdate ops key value
    | some (FieldValue.other _) => decide (key ∉ userPaths)
    | none => true)

/-- Update `User.findByIdAndUpdate(id, update, { new: true, runValidators: true })`: `none`
when a cast or a validator rejects the update (the promise rejects); otherwise the updated
document, or `none` for `null` when no user has the id, and the collection afterwards. -/
def User.findByIdAndUpdate (ops : StringOps) (users : List User) (id : ObjectId)
    (update : Obj) : Option (Option User × List User) :=
  if User.accepts ops update then
    match User.findById users id with
    | none => some (none, users)
    | some u =>
      let updated := (Obj.keys update).foldl (fun doc key =>
        match Obj.get update key with
        | some (FieldValue.str value) => User.assign ops doc key value
        | _ => doc) u
      some (some updated, User.replaceOne users updated)
  else none

/-- A user document without its password, `.select('-password')`. -/
structure ProfileDoc where
  _id : ObjectId
  email : String
  role : String
  name : Option String
  resume : Option String
  company : Option String
  companyDescription : Option String
  phone : Option String
  address : Option String
  linkedin : Option String
  photo : Option String
  createdAt : Date
  deriving DecidableEq, Repr

/-- Projection `.select('-password')`. -/
def User.toProfile (u : User) : ProfileDoc :=
  ⟨u._id, u.email, u.role, u.name, u.resume, u.company, u.companyDescription, u.phone,
    u.address, u.linkedin, u.photo, u.createdAt⟩

/-- The handler `router.put('/')` of `routes/profile.js`: update the profile of the actor.
`files` is `req.files`: the list multer sets for a multipart request, `none` (`undefined`)
for any other request, which multer passes on untouched, so that `req.files.forEach`
throws. `stored` tells whether the write reaches the store. A throw or a rejected write is
caught and answered 500. -/
def updateProfile (ops : StringOps) (stored : Bool) (db : Db) (user : ReqUser) (body : Body)
    (files : Option (List File)) : Response ProfileDoc × Db :=
  let updates := body
  match files with
  | none => (Response.fail 500 "Server error", db)
  | some files =>
    let filtered := filteredUpdates user.role updates files
    if stored then
      match User.findByIdAndUpdate ops db.users user.userId filtered with
      | none => (Response.fail 500 "Server error", db)
      | some (none, _) => (Response.fail 404 "User not found", db)
      | some (some updated, users) =>
        (Response.json updated.toProfile, { db with users := users })
    else
      (Response.fail 500 "Server error", db)

/-! ## Vocabulary of the statements -/

/-- The notifications related to `relatedId` whose metadata holds the string `value` under
`key`. -/
def transitionNotifications (ns : List Notification) (relatedId : ObjectId)
    (key value : String) : List Notification :=
  ns.filter (fun n => n.relatedId == relatedId && n.metadata.lookup key == some (Mixed.str value))

/-- The applications of the ledger made by `userId` for `jobId`. -/
def applicationsOf (apps : List Application) (jobId userId : ObjectId) : List Application :=
  apps.filter (fun a => a.jobId == jobId && a.userId == userId)

/-- A request to one of the two routes that write the ledger, with the environment it
meets. -/
inductive Request where
  | apply (env : Env) (user : ReqUser) (body : ApplyBody)
  | update (env : Env) (user : ReqUser) (id : ObjectId) (body : StatusBody)

/-- The database after a request has been handled. -/
def Request.run (db : Db) : Request → Db
  | Request.apply env user body => (applyForJob env db user body).2
  | Request.update env user id body => (updateApplicationStatus env db user id body).2

/-- The database after a sequence of requests, handled one after the other. -/
def runAll (db : Db) (requests : List Request) : Db :=
  requests.foldl Request.run db

/-- The applications an employer is to see, in ledger order: not rejected, and for a job
that exists and is owned by that employer. -/
def employerView (db : Db) (employerId : ObjectId) : List Application :=
  db.applications.filter (fun a =>
    a.status ≠ "rejected" &&
      match Job.findById db.jobs a.jobId with
      | none => false
      | some job => job.employerId == employerId)

/-- The applications a seeker is to see, in ledger order: the seeker's own ones. -/
def seekerView (db : Db) (seekerId : ObjectId) : List Application :=
  db.applications.filter (fun a => a.userId == seekerId)

/-- The fields of a user that no profile update is to change, with the `_id`. -/
def User.identity (u : User) : ObjectId × String × String × String :=
  (u._id, u.email, u.password, u.role)

/-- The filename of the last uploaded file whose field name is `key`, if there is one. -/
def uploadedFilename (files : List File) (key : String) : Option FieldValue :=
  ((files.filter (fun f => f.fieldname = key)).getLast?).map
    (fun f => FieldValue.str f.filename)

/-- Whether the value of every key of an object is a string. -/
def Obj.allStrings (o : Obj) : Bool :=
  (Obj.keys o).all (fun key =>
    match Obj.get o key with
    | some (FieldValue.other _) => false
    | _ => true)

/-- The stored value of a String path of a user document, `doc[key]`; `none` when the path
is not set or `key` is not such a path. -/
def User.read (u : User) (key : String) : Option String :=
  if key = "email" then some u.email
  else if key = "password" then some u.password
  else if key = "role" then some u.role
  else if key = "name" then u.name
  else if key = "resume" then u.resume
  else if key = "company" then u.company
  else if key = "companyDescription" then u.companyDescription
  else if key = "phone" then u.phone
  else if key = "address" then u.address
  else if key = "linkedin" then u.linkedin
  else if key = "photo" then u.photo
  else none

/-- What the setters of `userSchema` make of a value assigned to a path: lowercased and
trimmed for email, as it is for password, role, resume and photo, trimmed for the other
paths. -/
def User.stored (ops : StringOps) (key value : String) : String :=
  if key = "email" then ops.toLowerCase (ops.trim value)
  else if key = "password" ∨ key = "role" ∨ key = "resume" ∨ key = "photo" then value
  else ops.trim value

/-! ## A small database used by the concrete evaluations -/

/-- Two employers (1 and 2) and two job seekers (3 and 4). -/
def sampleUsers : List User :=
  [⟨1, "erin@corp.io", "secret1", "employer", some "Erin", none, some "Corp", none, none, none,
      none, none, 0⟩,
   ⟨2, "omar@other.io", "secret2", "employer", none, none, some "Other", none, none, none,
      none, none, 0⟩,
   ⟨3, "sam@mail.io", "secret3", "jobseeker", some "Sam", none, none, none, none, none,
      none, none, 0⟩,
   ⟨4, "sue@mail.io", "secret4", "jobseeker", some "Sue", none, none, none, none, none,
      none, none, 0⟩]

/-- Job 10 is owned by employer 1, job 11 by employer 2. -/
def sampleJobs : List Job :=
  [⟨10, "Engineer", "d", "q", "r", "Berlin", none, "Corp", 1, "Full-time", none, 5⟩,
   ⟨11, "Designer", "d", "q", "r", "Paris", none, "Other", 2, "Contract", none, 6⟩]

/-- Application 100: seeker 3 applied to job 10 at time 7; it is pending. -/
def sampleApplication : Application :=
  ⟨100, 10, 3, "pending", 7⟩

/-- The sample database: one application, no notification yet. -/
def sampleDb : Db :=
  ⟨sampleUsers, sampleJobs, [sampleApplication], []⟩

/-- The employer who owns job 10. -/
def erin : ReqUser :=
  ⟨1, "employer", "erin@corp.io", some "Erin"⟩

/-- An employer who does not own job 10. -/
def omar : ReqUser :=
  ⟨2, "employer", "omar@other.io", none⟩

/-- The job seeker who made application 100. -/
def sam : ReqUser :=
  ⟨3, "jobseeker", "sam@mail.io", some "Sam"⟩

/-- Another job seeker. -/
def sue : ReqUser :=
  ⟨4, "jobseeker", "sue@mail.io", some "Sue"⟩

/-- An environment in which every write succeeds. -/
def okEnv : Env :=
  ⟨9, 200, true, true⟩

/-- An environment in which the application is saved and the notification is not. -/
def notificationLostEnv : Env :=
  ⟨9, 200, true, false⟩

/-- A ledger with three applications of seeker 3, made at times 7, 8 and 9, the second one
rejected, and one application of seeker 4; jobs 10 and 12 are owned by employer 1. -/
def busyDb : Db :=
  ⟨sampleUsers,
    sampleJobs ++ [⟨12, "Analyst", "d", "q", "r", "Rome", none, "Corp", 1, "Part-time", none, 6⟩],
    [⟨100, 10, 3, "pending", 7⟩, ⟨101, 11, 3, "rejected", 8⟩, ⟨102, 12, 3, "accepted", 9⟩,
     ⟨103, 10, 4, "rejected", 10⟩],
    []⟩

/-- The sample database after employer 1 has deleted job 10: application 100 still refers
to job 10. -/
def orphanDb : Db :=
  (deleteJob true sampleDb erin 10).2

/-- String operations that leave a string as it is (fit for strings without outer blanks
or capitals). -/
def plainOps : StringOps :=
  ⟨fun s => s, fun s => s⟩

/-- A body without a property. -/
def emptyBody : Body :=
  ⟨[], by decide⟩

/-- A body with a role, an email and a name. -/
def renameBody : Body :=
  ⟨[("role", FieldValue.str "employer"), ("email", FieldValue.str "root@corp.io"),
    ("name", FieldValue.str "Sam S")], by decide⟩

/-- A body in which the field name was sent twice: multer made an array of it. -/
def repeatedNameBody : Body :=
  ⟨[("name", FieldValue.other "[\"Sam\",\"Sue\"]")], by decide⟩

/-! ## Lemmas on the queries and writes -/

theorem findById_application_some {apps : List Application} {id : ObjectId} {A : Application}
    (h : Application.findById apps id = some A) : A._id = id ∧ A ∈ apps := by
  unfold Application.findById at h
  exact ⟨by simpa using List.find?_some h, List.mem_of_find?_eq_some h⟩

theorem findById_user_some {users : List User} {id : ObjectId} {u : User}
    (h : User.findById users id = some u) : u._id = id := by
  unfold User.findById at h
  simpa using List.find?_some h

theorem findById_job_some {jobs : List Job} {id : ObjectId} {j : Job}
    (h : Job.findById jobs id = some j) : j._id = id := by
  unfold Job.findById at h
  simpa using List.find?_some h

theorem findById_saveStatus (apps : List Application) (id : ObjectId)
    (s : String) (A : Application) (h : Application.findById apps id = some A) :
    Application.findById (Application.saveStatus apps id s) id
      = some { A with status := s } := by
  induction apps with
  | nil => simp [Application.findById] at h
  | cons a rest ih =>
    unfold Application.saveStatus
    by_cases ha : a._id = id
    · have hb : (a._id == id) = true := by simpa using ha
      have hAa : a = A := by
        simpa [Application.findById, List.find?_cons, hb] using h
      subst hAa
      simp [Application.findById, List.find?_cons, ha]
    · have hb : (a._id == id) = false := by simpa using ha
      have h2 : Application.findById rest id = some A := by
        simpa [Application.findById, List.find?_cons, hb] using h
      simpa [Application.findById, List.find?_cons, ha, hb] using ih h2

/-! ## Ownership gating (C1) -/

/-- C1, as stated, fails: an employer who does not own the job of application 100 and asks
for a status outside pending / accepted / rejected is answered 400, not 403. -/
theorem update_non_owner_invalid_status_not_403 :
    omar.role = "employer"
    ∧ Application.findById sampleDb.applications 100 = some sampleApplication
    ∧ (Job.findById sampleDb.jobs sampleApplication.jobId).map (fun j => j.employerId) = some 1
    ∧ omar.userId ≠ 1
    ∧ (updateApplicationStatus okEnv sampleDb omar 100 ⟨"archived"⟩).1.status = 400
    ∧ (updateApplicationStatus okEnv sampleDb omar 100 ⟨"archived"⟩).1.status ≠ 403 := by
  decide

/-- C1, amended: an employer who does not own the job of an existing application is
answered 403 when the requested status is one of pending / accepted / rejected and 400
when it is not; either way the database, and so the status of the application, is as
before. -/
theorem update_non_owner_denied (env : Env) (db : Db) (user : ReqUser) (id : ObjectId)
    (body : StatusBody) (A : Application) (job : Job)
    (hrole : user.role = "employer")
    (hA : Application.findById db.applications id = some A)
    (hjob : Job.findById db.jobs A.jobId = some job)
    (hown : job.employerId ≠ user.userId) :
    (body.status ∈ ["pending", "accepted", "rejected"] →
        (updateApplicationStatus env db user id body).1.status = 403)
    ∧ (body.status ∉ ["pending", "accepted", "rejected"] →
        (updateApplicationStatus env db user id body).1.status = 400)
    ∧ (updateApplicationStatus env db user id body).2 = db
    ∧ Application.findById (updateApplicationStatus env db user id body).2.applications id
        = some A := by
  have hdb : (updateApplicationStatus env db user id body).2 = db := by
    by_cases hs : body.status ∈ ["pending", "accepted", "rejected"]
    · simp [updateApplicationStatus, hrole, hs, hA, populateAll, hjob, hown]
    · simp [updateApplicationStatus, hrole, hs]
  refine ⟨?_, ?_, hdb, ?_⟩
  · intro hs
    simp [updateApplicationStatus, hrole, hs, hA, populateAll, hjob, hown, Response.fail]
  · intro hs
    simp [updateApplicationStatus, hrole, hs, Response.fail]
  · rw [hdb]; exact hA

/-- The amended C1 at the sample database: the non-owner is answered 403 for "accepted". -/
theorem update_non_owner_denied_witness :
    (updateApplicationStatus okEnv sampleDb omar 100 ⟨"accepted"⟩).1.status = 403
    ∧ (updateApplicationStatus okEnv sampleDb omar 100 ⟨"accepted"⟩).2 = sampleDb :=
  have h := update_non_owner_denied okEnv sampleDb omar 100 ⟨"accepted"⟩ sampleApplication
    ⟨10, "Engineer", "d", "q", "r", "Berlin", none, "Corp", 1, "Full-time", none, 5⟩
    (by decide) (by decide) (by decide) (by decide)
  ⟨h.1 (by decide), h.2.2.1⟩

/-! ## The successful transition (C2, C3) -/

/-- What `router.put('/:id')` does once the role, the status value, the application and the
ownership have been checked. -/
theorem updateApplicationStatus_checked (env : Env) (db : Db) (user : ReqUser)
    (id : ObjectId) (body : StatusBody) (A : Application) (job : Job)
    (hrole : user.role = "employer")
    (hs : body.status ∈ ["pending", "accepted", "rejected"])
    (hA : Application.findById db.applications id = some A)
    (hjob : Job.findById db.jobs A.jobId = some job)
    (hown : job.employerId = user.userId) :
    updateApplicationStatus env db user id body =
      if env.applicationSave then
        match User.findById db.users A.userId with
        | none =>
          (Response.fail 500 "Server error",
            { db with applications := Application.saveStatus db.applications A._id body.status })
        | some seeker =>
          if env.notificationSave then
            (Response.json ⟨A._id, job, seeker, body.status, A.appliedAt⟩,
              { db with
                applications := Application.saveStatus db.applications A._id body.status
                notifications := Notification.insert db.notifications
                  (statusNotification env user ⟨A._id, job, seeker, body.status, A.appliedAt⟩
                    body.status A.status) })
          else
            (Response.fail 500 "Server error",
              { db with
                applications := Application.saveStatus db.applications A._id body.status })
      else (Response.fail 500 "Server error", db) := by
  simp only [updateApplicationStatus, hrole, hs, hA, populateAll, hjob, hown, Option.map_some']
  simp

/-- C2: when the owner of the job of application `A` asks for a status `t` among pending /
accepted / rejected (whatever the current status `s` of `A`, `t = s` included), and the
writes succeed, the answer is 200, `A` is stored with status `t`, and the outbox is the
earlier outbox followed by one notification for the seeker of `A`, of type
application_update, related to `A`, unread, with metadata oldStatus `s` and status `t`. -/
theorem update_owner_notifies (env : Env) (db : Db) (user : ReqUser) (id : ObjectId)
    (body : StatusBody) (A : Application) (job : Job) (seeker : User)
    (hsaveA : env.applicationSave = true) (hsaveN : env.notificationSave = true)
    (hrole : user.role = "employer")
    (hs : body.status ∈ ["pending", "accepted", "rejected"])
    (hA : Application.findById db.applications id = some A)
    (hjob : Job.findById db.jobs A.jobId = some job)
    (hown : job.employerId = user.userId)
    (hseeker : User.findById db.users A.userId = some seeker) :
    (updateApplicationStatus env db user id body).1.status = 200
    ∧ Application.findById (updateApplicationStatus env db user id body).2.applications id
        = some { A with status := body.status }
    ∧ ∃ n : Notification,
        (updateApplicationStatus env db user id body).2.notifications
          = db.notifications ++ [n]
        ∧ n.userId = A.userId
        ∧ n.type = "application_update"
        ∧ n.relatedId = A._id
        ∧ n.read = false
        ∧ n.metadata.lookup "oldStatus" = some (Mixed.str A.status)
        ∧ n.metadata.lookup "status" = some (Mixed.str body.status) := by
  rw [updateApplicationStatus_checked env db user id body A job hrole hs hA hjob hown]
  have hid := (findById_application_some hA).1
  simp only [hsaveA, hsaveN, hseeker, if_true]
  refine ⟨rfl, ?_, _, rfl, ?_, rfl, rfl, rfl, ?_, ?_⟩
  · simpa [hid] using findById_saveStatus db.applications id body.status A hA
  · simpa [statusNotification] using findById_user_some hseeker
  · simp [statusNotification, List.lookup]
  · simp [statusNotification, List.lookup]

/-- C2 at the sample database: the owner accepts the pending application 100. -/
theorem update_owner_notifies_witness :
    (updateApplicationStatus okEnv sampleDb erin 100 ⟨"accepted"⟩).1.status = 200
    ∧ Application.findById
        (updateApplicationStatus okEnv sampleDb erin 100 ⟨"accepted"⟩).2.applications 100
        = some { sampleApplication with status := "accepted" } :=
  have h := update_owner_notifies okEnv sampleDb erin 100 ⟨"accepted"⟩ sampleApplication
    ⟨10, "Engineer", "d", "q", "r", "Berlin", none, "Corp", 1, "Full-time", none, 5⟩
    ⟨3, "sam@mail.io", "secret3", "jobseeker", some "Sam", none, none, none, none, none,
      none, none, 0⟩
    (by decide) (by decide) (by decide) (by decide) (by decide) (by decide) (by decide)
    (by decide)
  ⟨h.1, h.2.1⟩

/-- A 200 answer of `router.put('/:id')` means that every check passed and both writes
succeeded. -/
theorem updateApplicationStatus_200 (env : Env) (db : Db) (user : ReqUser) (id : ObjectId)
    (body : StatusBody) (h : (updateApplicationStatus env db user id body).1.status = 200) :
    ∃ A job seeker, user.role = "employer"
      ∧ body.status ∈ ["pending", "accepted", "rejected"]
      ∧ Application.findById db.applications id = some A
      ∧ Job.findById db.jobs A.jobId = some job
      ∧ job.employerId = user.userId
      ∧ User.findById db.users A.userId = some seeker
      ∧ env.applicationSave = true ∧ env.notificationSave = true := by
  by_cases hrole : user.role = "employer"
  swap
  · simp [updateApplicationStatus, hrole, Response.fail] at h
  by_cases hs : body.status ∈ ["pending", "accepted", "rejected"]
  swap
  · simp [updateApplicationStatus, hrole, hs, Response.fail] at h
  cases hA : Application.findById db.applications id with
  | none => simp [updateApplicationStatus, hrole, hs, hA, Response.fail] at h
  | some A =>
    cases hjob : Job.findById db.jobs A.jobId with
    | none => simp [updateApplicationStatus, hrole, hs, hA, populateAll, hjob, Response.fail] at h
    | some job =>
      by_cases hown : job.employerId = user.userId
      swap
      · simp [updateApplicationStatus, hrole, hs, hA, populateAll, hjob, hown,
          Response.fail] at h
      rw [updateApplicationStatus_checked env db user id body A job hrole hs hA hjob hown] at h
      cases hsaveA : env.applicationSave with
      | false => simp [hsaveA, Response.fail] at h
      | true =>
        cases hseeker : User.findById db.users A.userId with
        | none => simp [hsaveA, hseeker, Response.fail] at h
        | some seeker =>
          cases hsaveN : env.notificationSave with
          | false => simp [hsaveA, hseeker, hsaveN, Response.fail] at h
          | true => exact ⟨A, job, seeker, hrole, hs, rfl, hjob, hown, hseeker, rfl, rfl⟩

/-- C3, as stated, fails twice over. The metadata of a notification has no `newStatus`
key (the requested status is under `status`), so after the owner accepts application 100
no notification related to it has metadata.newStatus = accepted. And under the key
`status`, accepting the application a second time leaves two such notifications. -/
theorem update_success_not_exactly_one :
    (updateApplicationStatus okEnv sampleDb erin 100 ⟨"accepted"⟩).1.status = 200
    ∧ (transitionNotifications
        (updateApplicationStatus okEnv sampleDb erin 100 ⟨"accepted"⟩).2.notifications
        100 "newStatus" "accepted").length = 0
    ∧ (updateApplicationStatus okEnv
        (updateApplicationStatus okEnv sampleDb erin 100 ⟨"accepted"⟩).2
        erin 100 ⟨"accepted"⟩).1.status = 200
    ∧ (transitionNotifications
        (updateApplicationStatus okEnv
          (updateApplicationStatus okEnv sampleDb erin 100 ⟨"accepted"⟩).2
          erin 100 ⟨"accepted"⟩).2.notifications
        100 "status" "accepted").length = 2 := by
  decide

/-- C3, amended: every successful update-application-status call on application `id` with
requested status `t` appends exactly one notification to the outbox; that notification is
related to `id`, holds `t` under the metadata key `status` and has no key `newStatus`; so
the number of notifications related to `id` with metadata.status = `t` is one more than
before the call. -/
theorem update_success_appends_one (env : Env) (db : Db) (user : ReqUser) (id : ObjectId)
    (body : StatusBody) (h : (updateApplicationStatus env db user id body).1.status = 200) :
    (∃ n : Notification,
      (updateApplicationStatus env db user id body).2.notifications = db.notifications ++ [n]
      ∧ n.relatedId = id
      ∧ n.metadata.lookup "status" = some (Mixed.str body.status)
      ∧ n.metadata.lookup "newStatus" = none)
    ∧ (transitionNotifications (updateApplicationStatus env db user id body).2.notifications
        id "status" body.status).length
      = (transitionNotifications db.notifications id "status" body.status).length + 1 := by
  obtain ⟨A, job, seeker, hrole, hs, hA, hjob, hown, hseeker, hsaveA, hsaveN⟩ :=
    updateApplicationStatus_200 env db user id body h
  have hid := (findById_application_some hA).1
  rw [updateApplicationStatus_checked env db user id body A job hrole hs hA hjob hown]
  simp only [hsaveA, hsaveN, hseeker, if_true]
  refine ⟨⟨_, rfl, ?_, ?_, ?_⟩, ?_⟩
  · simpa [statusNotification] using hid
  · simp [statusNotification, List.lookup]
  · simp [statusNotification, List.lookup]
  · simp [transitionNotifications, Notification.insert, List.filter_append, statusNotification,
      List.lookup, hid]

/-- The amended C3 at the sample database: one notification with metadata.status = accepted
after the first acceptance of application 100. -/
theorem update_success_appends_one_witness :
    (transitionNotifications
        (updateApplicationStatus okEnv sampleDb erin 100 ⟨"accepted"⟩).2.notifications
        100 "status" "accepted").length
      = (transitionNotifications sampleDb.notifications 100 "status" "accepted").length + 1 :=
  (update_success_appends_one okEnv sampleDb erin 100 ⟨"accepted"⟩ (by decide)).2

/-! ## Failing writes (C4) -/

/-- C4, as stated, fails: when the owner accepts the pending application 100 and the save
of the notification fails, the answer is 500 and no notification exists, but the stored
status of the application is accepted, not pending as before the call. -/
theorem update_notification_failure_keeps_new_status :
    (updateApplicationStatus notificationLostEnv sampleDb erin 100 ⟨"accepted"⟩).1.status = 500
    ∧ (updateApplicationStatus notificationLostEnv sampleDb erin 100
        ⟨"accepted"⟩).2.notifications = []
    ∧ (Application.findById sampleDb.applications 100).map (fun a => a.status)
        = some "pending"
    ∧ (Application.findById
        (updateApplicationStatus notificationLostEnv sampleDb erin 100
          ⟨"accepted"⟩).2.applications 100).map (fun a => a.status)
        = some "accepted" := by
  decide

/-- C4, amended: when update-application-status passes all its checks and the save of the
application fails, the answer is 500 and the database is as before (no notification,
status unchanged); when the save of the application succeeds and the save of the
notification fails, the answer is 500 and the outbox is as before, while the application
is stored with the requested status (there is no rollback). -/
theorem update_write_failure (env : Env) (db : Db) (user : ReqUser) (id : ObjectId)
    (body : StatusBody) (A : Application) (job : Job)
    (hrole : user.role = "employer")
    (hs : body.status ∈ ["pending", "accepted", "rejected"])
    (hA : Application.findById db.applications id = some A)
    (hjob : Job.findById db.jobs A.jobId = some job)
    (hown : job.employerId = user.userId) :
    (env.applicationSave = false →
        (updateApplicationStatus env db user id body).1.status = 500
        ∧ (updateApplicationStatus env db user id body).2 = db)
    ∧ (env.applicationSave = true → env.notificationSave = false →
        (updateApplicationStatus env db user id body).1.status = 500
        ∧ (updateApplicationStatus env db user id body).2.notifications = db.notifications
        ∧ Application.findById (updateApplicationStatus env db user id body).2.applications id
            = some { A with status := body.status }) := by
  rw [updateApplicationStatus_checked env db user id body A job hrole hs hA hjob hown]
  have hid := (findById_application_some hA).1
  have hsaved := findById_saveStatus db.applications id body.status A hA
  refine ⟨?_, ?_⟩
  · intro hsaveA
    simp [hsaveA, Response.fail]
  · intro hsaveA hsaveN
    cases hseeker : User.findById db.users A.userId with
    | none => simpa [hsaveA, hsaveN, hseeker, Response.fail, hid] using hsaved
    | some seeker => simpa [hsaveA, hsaveN, hseeker, Response.fail, hid] using hsaved

/-- The amended C4 at the sample database, with the save of the application failing. -/
theorem update_write_failure_witness :
    (updateApplicationStatus ⟨9, 200, false, true⟩ sampleDb erin 100 ⟨"accepted"⟩).1.status
      = 500
    ∧ (updateApplicationStatus ⟨9, 200, false, true⟩ sampleDb erin 100 ⟨"accepted"⟩).2
      = sampleDb :=
  (update_write_failure ⟨9, 200, false, true⟩ sampleDb erin 100 ⟨"accepted"⟩ sampleApplication
    ⟨10, "Engineer", "d", "q", "r", "Berlin", none, "Corp", 1, "Full-time", none, 5⟩
    (by decide) (by decide) (by decide) (by decide) (by decide)).1 rfl

/-! ## Uniqueness of the application of a seeker to a job (C5) -/

theorem saveStatus_keys (apps : List Application) (id : ObjectId) (s : String) :
    (Application.saveStatus apps id s).map (fun a => (a.jobId, a.userId))
      = apps.map (fun a => (a.jobId, a.userId)) := by
  induction apps with
  | nil => rfl
  | cons a rest ih =>
    unfold Application.saveStatus
    by_cases ha : a._id = id
    · simp [ha]
    · simp [ha, ih]

theorem applicationsOf_length (apps : List Application) (j u : ObjectId) :
    (applicationsOf apps j u).length
      = ((apps.map (fun a => (a.jobId, a.userId))).filter
          (fun k => k.1 == j && k.2 == u)).length := by
  induction apps with
  | nil => rfl
  | cons a rest ih =>
    simp only [applicationsOf, List.map_cons, List.filter_cons] at ih ⊢
    by_cases h : (a.jobId == j && a.userId == u) = true
    · simp [h, ih]
    · simp [h, ih]

theorem applicationsOf_saveStatus (apps : List Application) (id : ObjectId) (s : String)
    (j u : ObjectId) :
    (applicationsOf (Application.saveStatus apps id s) j u).length
      = (applicationsOf apps j u).length := by
  rw [applicationsOf_length, applicationsOf_length, saveStatus_keys]

theorem applicationsOf_eq_nil_of_findOne {apps : List Application} {j u : ObjectId}
    (h : Application.findOne apps j u = none) : applicationsOf apps j u = [] := by
  unfold Application.findOne at h
  rw [List.find?_eq_none] at h
  simp only [applicationsOf, List.filter_eq_nil_iff]
  exact h

/-- The equation of `router.post('/')` for a job seeker and an existing job. -/
theorem applyForJob_checked (env : Env) (db : Db) (user : ReqUser) (body : ApplyBody)
    (j : ObjectId) (job : Job)
    (hrole : user.role = "jobseeker")
    (hbody : body.jobId = JobIdField.objectId j)
    (hjob : Job.findById db.jobs j = some job) :
    applyForJob env db user body =
      match Application.findOne db.applications j user.userId with
      | some _ => (Response.fail 400 "You have already applied for this job", db)
      | none =>
        if env.applicationSave then
          (⟨201, some "Application submitted successfully",
              some ⟨env.newId, j, user.userId, "pending", env.now⟩⟩,
            { db with applications :=
                db.applications ++ [⟨env.newId, j, user.userId, "pending", env.now⟩] })
        else (Response.fail 500 "Server error", db) := by
  simp only [applyForJob, hrole, hbody, hjob, Application.insert]
  simp

/-- A 201 answer of `router.post('/')` means that every check passed and the write
succeeded. -/
theorem applyForJob_201 (env : Env) (db : Db) (user : ReqUser) (body : ApplyBody)
    (h : (applyForJob env db user body).1.status = 201) :
    ∃ j job, user.role = "jobseeker" ∧ body.jobId = JobIdField.objectId j
      ∧ Job.findById db.jobs j = some job
      ∧ Application.findOne db.applications j user.userId = none
      ∧ env.applicationSave = true := by
  by_cases hrole : user.role = "jobseeker"
  swap
  · simp [applyForJob, hrole, Response.fail] at h
  cases hbody : body.jobId with
  | falsy => simp [applyForJob, hrole, hbody, Response.fail] at h
  | malformed raw => simp [applyForJob, hrole, hbody, Response.fail] at h
  | operators selects =>
    cases hj : Job.findWhere db.jobs selects with
    | none => simp [applyForJob, hrole, hbody, hj, Response.fail] at h
    | some job =>
      cases ha : Application.findOneWhere db.applications selects user.userId <;>
        simp [applyForJob, hrole, hbody, hj, ha, Response.fail] at h
  | objectId j =>
    cases hjob : Job.findById db.jobs j with
    | none => simp [applyForJob, hrole, hbody, hjob, Response.fail] at h
    | some job =>
      rw [applyForJob_checked env db user body j job hrole hbody hjob] at h
      cases hone : Application.findOne db.applications j user.userId with
      | some a => simp [hone, Response.fail] at h
      | none =>
        cases hsave : env.applicationSave with
        | false => simp [hone, hsave, Response.fail] at h
        | true => exact ⟨j, job, hrole, rfl, hjob, hone, rfl⟩

/-- The ledger after `router.post('/')`: as before, or with one more application, for a
pair of job and seeker that had none. -/
theorem applyForJob_ledger (env : Env) (db : Db) (user : ReqUser) (body : ApplyBody) :
    (applyForJob env db user body).2 = db
    ∨ ∃ j, Application.findOne db.applications j user.userId = none
        ∧ (applyForJob env db user body).2.applications
            = db.applications ++ [⟨env.newId, j, user.userId, "pending", env.now⟩] := by
  by_cases hrole : user.role = "jobseeker"
  swap
  · left; simp [applyForJob, hrole]
  cases hbody : body.jobId with
  | falsy => left; simp [applyForJob, hrole, hbody]
  | malformed raw => left; simp [applyForJob, hrole, hbody]
  | operators selects =>
    left
    cases hj : Job.findWhere db.jobs selects with
    | none => simp [applyForJob, hrole, hbody, hj]
    | some job =>
      cases ha : Application.findOneWhere db.applications selects user.userId <;>
        simp [applyForJob, hrole, hbody, hj, ha]
  | objectId j =>
    cases hjob : Job.findById db.jobs j with
    | none => left; simp [applyForJob, hrole, hbody, hjob]
    | some job =>
      rw [applyForJob_checked env db user body j job hrole hbody hjob]
      cases hone : Application.findOne db.applications j user.userId with
      | some a => left; rfl
      | none =>
        cases hsave : env.applicationSave with
        | false => left; simp
        | true => right; exact ⟨j, hone, by simp⟩

/-- The ledger after `router.put('/:id')`: as before, or with the status of one stored
application overwritten. -/
theorem updateApplicationStatus_ledger (env : Env) (db : Db) (user : ReqUser)
    (id : ObjectId) (body : StatusBody) :
    (updateApplicationStatus env db user id body).2.applications = db.applications
    ∨ ∃ i s, (updateApplicationStatus env db user id body).2.applications
        = Application.saveStatus db.applications i s := by
  by_cases hrole : user.role = "employer"
  swap
  · left; simp [updateApplicationStatus, hrole]
  by_cases hs : body.status ∈ ["pending", "accepted", "rejected"]
  swap
  · left; simp [updateApplicationStatus, hrole, hs]
  cases hA : Application.findById db.applications id with
  | none => left; simp [updateApplicationStatus, hrole, hs, hA]
  | some A =>
    cases hjob : Job.findById db.jobs A.jobId with
    | none => left; simp [updateApplicationStatus, hrole, hs, hA, populateAll, hjob]
    | some job =>
      by_cases hown : job.employerId = user.userId
      swap
      · left; simp [updateApplicationStatus, hrole, hs, hA, populateAll, hjob, hown]
      rw [updateApplicationStatus_checked env db user id body A job hrole hs hA hjob hown]
      cases hsaveA : env.applicationSave with
      | false => left; simp
      | true =>
        right
        refine ⟨A._id, body.status, ?_⟩
        cases hseeker : User.findById db.users A.userId with
        | none => simp
        | some seeker =>
          cases hsaveN : env.notificationSave with
          | false => simp
          | true => simp

/-- One request keeps the ledger free of a second application of a seeker to a job. -/
theorem run_unique (db : Db) (r : Request)
    (h : ∀ j u, (applicationsOf db.applications j u).length ≤ 1) :
    ∀ j u, (applicationsOf (r.run db).applications j u).length ≤ 1 := by
  intro j u
  cases r with
  | apply env user body =>
    rcases applyForJob_ledger env db user body with heq | ⟨j', hnone, heq⟩
    · simpa [Request.run, heq] using h j u
    · simp only [Request.run, heq, applicationsOf, List.filter_append, List.length_append]
      by_cases hk : j' = j ∧ user.userId = u
      · obtain ⟨rfl, rfl⟩ := hk
        have := applicationsOf_eq_nil_of_findOne hnone
        simp only [applicationsOf] at this
        simp [this]
      · have hb : (j' == j && user.userId == u) = false := by
          simpa using hk
        have := h j u
        simp only [applicationsOf] at this
        simpa [List.filter_cons, hb] using this
  | update env user id body =>
    rcases updateApplicationStatus_ledger env db user id body with heq | ⟨i, s, heq⟩
    · simpa [Request.run, heq] using h j u
    · simpa [Request.run, heq, applicationsOf_saveStatus] using h j u

theorem runAll_unique (requests : List Request) (db : Db)
    (h : ∀ j u, (applicationsOf db.applications j u).length ≤ 1) :
    ∀ j u, (applicationsOf (runAll db requests).applications j u).length ≤ 1 := by
  induction requests generalizing db with
  | nil => simpa [runAll] using h
  | cons r rest ih =>
    simpa [runAll] using ih (r.run db) (run_unique db r h)

/-- C5: after any sequence of apply-for-job and update-application-status requests, run one
after the other from an empty ledger, the ledger holds at most one application for each
pair of job and seeker; and once an apply by a seeker to a job has been answered 201, an
apply by the same seeker to the same job is answered 400 and leaves the database as it
is. -/
theorem ledger_unique_per_job_and_seeker :
    (∀ (users : List User) (jobs : List Job) (notifications : List Notification)
        (requests : List Request) (j u : ObjectId),
        (applicationsOf (runAll ⟨users, jobs, [], notifications⟩ requests).applications
          j u).length ≤ 1)
    ∧ (∀ (env env2 : Env) (db : Db) (user : ReqUser) (body : ApplyBody),
        (applyForJob env db user body).1.status = 201 →
        (applyForJob env2 (applyForJob env db user body).2 user body).1.status = 400
        ∧ (applyForJob env2 (applyForJob env db user body).2 user body).2
            = (applyForJob env db user body).2) := by
  refine ⟨?_, ?_⟩
  · intro users jobs notifications requests
    exact runAll_unique requests _ (by simp [applicationsOf])
  · intro env env2 db user body h
    obtain ⟨j, job, hrole, hbody, hjob, hone, hsave⟩ := applyForJob_201 env db user body h
    have h1 := applyForJob_checked env db user body j job hrole hbody hjob
    simp only [hone, hsave, if_true] at h1
    rw [h1]
    have hfound : ∃ a, Application.findOne
        (db.applications ++ [⟨env.newId, j, user.userId, "pending", env.now⟩])
        j user.userId = some a := by
      have hnone : List.find? (fun a => a.jobId == j && a.userId == user.userId)
          db.applications = none := hone
      exact ⟨⟨env.newId, j, user.userId, "pending", env.now⟩,
        by simp [Application.findOne, List.find?_append, hnone, List.find?_cons]⟩
    obtain ⟨a, ha⟩ := hfound
    rw [applyForJob_checked env2 _ user body j job hrole hbody (by simpa using hjob)]
    simp [ha, Response.fail]

/-- C5 at the sample database: seeker 4 applies to job 10 twice. -/
theorem ledger_unique_per_job_and_seeker_witness :
    (applyForJob okEnv sampleDb sue ⟨JobIdField.objectId 10⟩).1.status = 201
    ∧ (applyForJob okEnv (applyForJob okEnv sampleDb sue ⟨JobIdField.objectId 10⟩).2 sue
        ⟨JobIdField.objectId 10⟩).1.status = 400
    ∧ (applyForJob okEnv (applyForJob okEnv sampleDb sue ⟨JobIdField.objectId 10⟩).2 sue
        ⟨JobIdField.objectId 10⟩).2
        = (applyForJob okEnv sampleDb sue ⟨JobIdField.objectId 10⟩).2 :=
  ⟨by decide,
    ledger_unique_per_job_and_seeker.2 okEnv okEnv sampleDb sue ⟨JobIdField.objectId 10⟩
      (by decide)⟩

/-! ## Outcome of an application (C6, C7) -/

theorem findOne_eq_find_own (apps : List Application) (j u : ObjectId) :
    Application.findOne apps j u
      = (apps.filter (fun a => a.userId == u)).find? (fun a => a.jobId == j) := by
  induction apps with
  | nil => rfl
  | cons a rest ih =>
    unfold Application.findOne at ih ⊢
    by_cases hu : a.userId = u
    · by_cases hj : a.jobId = j
      · simp [List.find?_cons, List.filter_cons, hu, hj]
      · simp [List.find?_cons, List.filter_cons, hu, hj, ih]
    · simp [List.find?_cons, List.filter_cons, hu, ih]

theorem findOneWhere_eq_find_own (apps : List Application) (selects : ObjectId → Bool)
    (u : ObjectId) :
    Application.findOneWhere apps selects u
      = (apps.filter (fun a => a.userId == u)).find? (fun a => selects a.jobId) := by
  induction apps with
  | nil => rfl
  | cons a rest ih =>
    unfold Application.findOneWhere at ih ⊢
    by_cases hu : a.userId = u
    · cases hj : selects a.jobId with
      | true => simp [List.find?_cons, List.filter_cons, hu, hj]
      | false => simp [List.find?_cons, List.filter_cons, hu, hj, ih]
    · simp [List.find?_cons, List.filter_cons, hu, ih]

/-- C6, as stated, fails: job seeker 4 applies with the non-empty jobId abc, which is the id
of no job; the query for the job rejects and the answer is 500, not 404. The database is
as before. (With the operators `{ $ne: null }` as jobId, which select every job, seeker 4
is answered 500 too, and seeker 3, who has an application, 400.) -/
theorem apply_malformed_job_id_not_404 :
    sue.role = "jobseeker"
    ∧ (applyForJob okEnv sampleDb sue ⟨JobIdField.malformed "abc"⟩).1.status = 500
    ∧ (applyForJob okEnv sampleDb sue ⟨JobIdField.malformed "abc"⟩).1.status ≠ 404
    ∧ (applyForJob okEnv sampleDb sue ⟨JobIdField.malformed "abc"⟩).2 = sampleDb
    ∧ (applyForJob okEnv sampleDb sue ⟨JobIdField.operators (fun _ => true)⟩).1.status = 500
    ∧ (applyForJob okEnv sampleDb sam ⟨JobIdField.operators (fun _ => true)⟩).1.status
        = 400 := by
  decide

/-- C6, amended: for a job seeker `S` and a body with a non-empty jobId that is a
well-formed id, apply-for-job answers 404 when no job has that id and 400 when the job
exists and `S` already has an application for it, both without touching the database;
otherwise, the write succeeding, it answers 201 and the database afterwards is the one
before with one application appended to the ledger, for that job, by `S`, pending, applied
now. Any other non-empty jobId leaves the database as it is: a value that does not cast to
an id is answered 500, and an object of query operators is answered 404 when it selects no
job, 400 when it selects a job and the job of an application of `S`, and 500 otherwise. So
the outbox is as before in every case. The answer depends on the ledger only through the
applications of `S`: two ledgers with the same applications of `S` get the same status,
whatever other seekers have applied to. -/
theorem apply_outcome (env : Env) (db : Db) (user : ReqUser) (body : ApplyBody)
    (hrole : user.role = "jobseeker") :
    (∀ raw, body.jobId = JobIdField.malformed raw →
        (applyForJob env db user body).1.status = 500
        ∧ (applyForJob env db user body).2 = db)
    ∧ (∀ j, body.jobId = JobIdField.objectId j →
      (Job.findById db.jobs j = none →
          (applyForJob env db user body).1.status = 404
          ∧ (applyForJob env db user body).2 = db)
      ∧ (∀ job a, Job.findById db.jobs j = some job →
          Application.findOne db.applications j user.userId = some a →
          (applyForJob env db user body).1.status = 400
          ∧ (applyForJob env db user body).2 = db)
      ∧ (∀ job, Job.findById db.jobs j = some job →
          Application.findOne db.applications j user.userId = none →
          env.applicationSave = true →
          (applyForJob env db user body).1.status = 201
          ∧ ∃ a : Application,
              (applyForJob env db user body).2
                = { db with applications := db.applications ++ [a] }
              ∧ a.jobId = j ∧ a.userId = user.userId ∧ a.status = "pending"
              ∧ a.appliedAt = env.now
              ∧ (applyForJob env db user body).2.notifications = db.notifications))
    ∧ (∀ selects, body.jobId = JobIdField.operators selects →
      (Job.findWhere db.jobs selects = none →
          (applyForJob env db user body).1.status = 404
          ∧ (applyForJob env db user body).2 = db)
      ∧ (∀ job a, Job.findWhere db.jobs selects = some job →
          Application.findOneWhere db.applications selects user.userId = some a →
          (applyForJob env db user body).1.status = 400
          ∧ (applyForJob env db user body).2 = db)
      ∧ (∀ job, Job.findWhere db.jobs selects = some job →
          Application.findOneWhere db.applications selects user.userId = none →
          (applyForJob env db user body).1.status = 500
          ∧ (applyForJob env db user body).2 = db))
    ∧ (∀ apps : List Application,
        apps.filter (fun a => a.userId == user.userId)
          = db.applications.filter (fun a => a.userId == user.userId) →
        (applyForJob env { db with applications := apps } user body).1.status
          = (applyForJob env db user body).1.status) := by
  refine ⟨?_, ?_, ?_, ?_⟩
  · intro raw hbody
    simp [applyForJob, hrole, hbody, Response.fail]
  · intro j hbody
    refine ⟨?_, ?_, ?_⟩
    · intro hjob
      simp [applyForJob, hrole, hbody, hjob, Response.fail]
    · intro job a hjob hone
      rw [applyForJob_checked env db user body j job hrole hbody hjob]
      simp [hone, Response.fail]
    · intro job hjob hone hsave
      rw [applyForJob_checked env db user body j job hrole hbody hjob]
      refine ⟨by simp [hone, hsave], ⟨env.newId, j, user.userId, "pending", env.now⟩, ?_⟩
      simp [hone, hsave]
  · intro selects hbody
    refine ⟨?_, ?_, ?_⟩
    · intro hjob
      simp [applyForJob, hrole, hbody, hjob, Response.fail]
    · intro job a hjob hone
      simp [applyForJob, hrole, hbody, hjob, hone, Response.fail]
    · intro job hjob hone
      simp [applyForJob, hrole, hbody, hjob, hone, Response.fail]
  · intro apps hsame
    cases hbody : body.jobId with
    | falsy => simp [applyForJob, hrole, hbody]
    | malformed raw => simp [applyForJob, hrole, hbody]
    | operators selects =>
      have hone : Application.findOneWhere apps selects user.userId
          = Application.findOneWhere db.applications selects user.userId := by
        rw [findOneWhere_eq_find_own, findOneWhere_eq_find_own, hsame]
      simp only [applyForJob, hrole, hbody, hone]
      cases Job.findWhere db.jobs selects with
      | none => rfl
      | some job =>
        cases Application.findOneWhere db.applications selects user.userId <;> rfl
    | objectId j =>
      have hone : Application.findOne apps j user.userId
          = Application.findOne db.applications j user.userId := by
        rw [findOne_eq_find_own, findOne_eq_find_own, hsame]
      cases hjob : Job.findById db.jobs j with
      | none => simp [applyForJob, hrole, hbody, hjob]
      | some job =>
        rw [applyForJob_checked env db user body j job hrole hbody hjob,
          applyForJob_checked env _ user body j job hrole hbody (by simpa using hjob)]
        simp only [hone]
        cases Application.findOne db.applications j user.userId with
        | some a => rfl
        | none =>
          cases env.applicationSave with
          | false => rfl
          | true => rfl

/-- The amended C6 at the sample database: seeker 4 applies to job 10, to which seeker 3
has applied. -/
theorem apply_outcome_witness :
    (applyForJob okEnv sampleDb sue ⟨JobIdField.objectId 10⟩).1.status = 201
    ∧ ∃ a : Application,
        (applyForJob okEnv sampleDb sue ⟨JobIdField.objectId 10⟩).2
          = { sampleDb with applications := sampleDb.applications ++ [a] }
        ∧ a.jobId = 10 ∧ a.userId = sue.userId ∧ a.status = "pending"
        ∧ a.appliedAt = okEnv.now
        ∧ (applyForJob okEnv sampleDb sue ⟨JobIdField.objectId 10⟩).2.notifications
            = sampleDb.notifications :=
  ((apply_outcome okEnv sampleDb sue ⟨JobIdField.objectId 10⟩ (by decide)).2.1 10 rfl).2.2
    ⟨10, "Engineer", "d", "q", "r", "Berlin", none, "Corp", 1, "Full-time", none, 5⟩
    (by decide) (by decide) (by decide)

/-- C7: whatever the body and the database, apply-for-job by an actor whose role is
employer is answered 403 and the database afterwards, the ledger in particular, is the
one before. -/
theorem apply_employer_denied (env : Env) (db : Db) (user : ReqUser) (body : ApplyBody)
    (hrole : user.role = "employer") :
    (applyForJob env db user body).1.status = 403
    ∧ (applyForJob env db user body).2 = db
    ∧ (applyForJob env db user body).2.applications = db.applications := by
  simp [applyForJob, hrole, Response.fail]

/-- C7 at the sample database: employer 1 applies to job 11, without a jobId, to a job
that does not exist, and with a jobId that is not an id. -/
theorem apply_employer_denied_witness :
    (applyForJob okEnv sampleDb erin ⟨JobIdField.objectId 11⟩).1.status = 403
    ∧ (applyForJob okEnv sampleDb erin ⟨JobIdField.falsy⟩).1.status = 403
    ∧ (applyForJob okEnv sampleDb erin ⟨JobIdField.objectId 77⟩).1.status = 403
    ∧ (applyForJob okEnv sampleDb erin ⟨JobIdField.malformed "abc"⟩).1.status = 403
    ∧ (applyForJob okEnv sampleDb erin ⟨JobIdField.objectId 11⟩).2 = sampleDb :=
  ⟨(apply_employer_denied okEnv sampleDb erin ⟨JobIdField.objectId 11⟩ (by decide)).1,
    (apply_employer_denied okEnv sampleDb erin ⟨JobIdField.falsy⟩ (by decide)).1,
    (apply_employer_denied okEnv sampleDb erin ⟨JobIdField.objectId 77⟩ (by decide)).1,
    (apply_employer_denied okEnv sampleDb erin ⟨JobIdField.malformed "abc"⟩ (by decide)).1,
    (apply_employer_denied okEnv sampleDb erin ⟨JobIdField.objectId 11⟩ (by decide)).2.1⟩

/-! ## The listings (C8, C9) -/

theorem sortByAppliedAtDesc_perm (apps : List Application) :
    (sortByAppliedAtDesc apps).Perm apps :=
  List.perm_insertionSort _ apps

theorem sortByAppliedAtDesc_sorted (apps : List Application) :
    (sortByAppliedAtDesc apps).Pairwise (fun a b => b.appliedAt ≤ a.appliedAt) := by
  haveI : IsTotal Application (fun a b => b.appliedAt ≤ a.appliedAt) :=
    ⟨fun a b => Nat.le_total b.appliedAt a.appliedAt⟩
  haveI : IsTrans Application (fun a b => b.appliedAt ≤ a.appliedAt) :=
    ⟨fun _ _ _ hab hbc => Nat.le_trans hbc hab⟩
  exact List.sorted_insertionSort (fun a b : Application => b.appliedAt ≤ a.appliedAt) apps

/-- The employer listing is the sorted, populated list of the applications of
`employerView`. -/
theorem getApplications_eq (db : Db) (user : ReqUser) (hrole : user.role = "employer") :
    getApplications db user
      = Response.json (((sortByAppliedAtDesc
          (db.applications.filter (fun a => a.status ≠ "rejected"))).filter (fun a =>
            match Job.findById db.jobs a.jobId with
            | none => false
            | some job => job.employerId == user.userId)).map (populateForEmployer db)) := by
  simp only [getApplications, hrole, List.filter_map]
  simp only [ne_eq, not_true_eq_false, if_false]
  congr 2
  apply List.filter_congr
  intro a _
  simp only [Function.comp, populateForEmployer]
  cases Job.findById db.jobs a.jobId with
  | none => rfl
  | some job => rfl

theorem getApplications_perm (db : Db) (user : ReqUser) (hrole : user.role = "employer") :
    ∃ l, getApplications db user = Response.json l
      ∧ l.Perm ((employerView db user.userId).map (populateForEmployer db))
      ∧ l.Pairwise (fun p q => q.appliedAt ≤ p.appliedAt) := by
  refine ⟨_, getApplications_eq db user hrole, ?_, ?_⟩
  · apply List.Perm.map
    have h := (sortByAppliedAtDesc_perm
      (db.applications.filter (fun a => a.status ≠ "rejected"))).filter (fun a =>
        match Job.findById db.jobs a.jobId with
        | none => false
        | some job => job.employerId == user.userId)
    refine h.trans ?_
    rw [List.filter_filter, employerView]
    apply List.Perm.of_eq
    apply List.filter_congr
    intro a _
    simp [Bool.and_comm]
  · rw [List.pairwise_map]
    exact (sortByAppliedAtDesc_sorted _).filter _

/-- The seeker listing is the sorted, populated list of the applications of `seekerView`. -/
theorem getMyApplications_eq (db : Db) (user : ReqUser) (hrole : user.role = "jobseeker") :
    getMyApplications db user
      = Response.json ((sortByAppliedAtDesc (seekerView db user.userId)).map
          (populateForSeeker db)) := by
  simp [getMyApplications, hrole, seekerView]

theorem getMyApplications_perm (db : Db) (user : ReqUser) (hrole : user.role = "jobseeker") :
    ∃ l, getMyApplications db user = Response.json l
      ∧ l.Perm ((seekerView db user.userId).map (populateForSeeker db))
      ∧ l.Pairwise (fun p q => q.appliedAt ≤ p.appliedAt) := by
  refine ⟨_, getMyApplications_eq db user hrole, ?_, ?_⟩
  · exact (sortByAppliedAtDesc_perm _).map _
  · rw [List.pairwise_map]
    exact sortByAppliedAtDesc_sorted _

theorem mem_employerView (db : Db) (employerId : ObjectId) (a : Application) :
    a ∈ employerView db employerId ↔
      a ∈ db.applications ∧ a.status ≠ "rejected"
        ∧ ∃ job, Job.findById db.jobs a.jobId = some job ∧ job.employerId = employerId := by
  unfold employerView
  cases h : Job.findById db.jobs a.jobId with
  | none => simp [h]
  | some job => simp [h]

theorem mem_seekerView (db : Db) (seekerId : ObjectId) (a : Application) :
    a ∈ seekerView db seekerId ↔ a ∈ db.applications ∧ a.userId = seekerId := by
  simp [seekerView]

/-- C8: the employer listing holds exactly the populated documents of the applications that
are not rejected and whose job exists and is owned by the employer, each once, so no
element of it is rejected or is for a job of another employer; the seeker listing holds
exactly the populated documents of the applications whose userId is the seeker, each once,
whatever their status. -/
theorem listings_visibility (db : Db) (user : ReqUser) :
    (user.role = "employer" →
      ∃ l, getApplications db user = Response.json l
        ∧ (∀ p, p ∈ l ↔ ∃ a ∈ db.applications, p = populateForEmployer db a
            ∧ a.status ≠ "rejected"
            ∧ ∃ job, Job.findById db.jobs a.jobId = some job ∧ job.employerId = user.userId)
        ∧ (∀ p ∈ l, p.status ≠ "rejected"
            ∧ ∃ job : JobRef, p.jobId = some job ∧ job.employerId = user.userId)
        ∧ l.length = (employerView db user.userId).length)
    ∧ (user.role = "jobseeker" →
      ∃ l, getMyApplications db user = Response.json l
        ∧ (∀ p, p ∈ l ↔ ∃ a ∈ db.applications, p = populateForSeeker db a
            ∧ a.userId = user.userId)
        ∧ l.length = (seekerView db user.userId).length) := by
  refine ⟨?_, ?_⟩
  · intro hrole
    obtain ⟨l, hl, hperm, _⟩ := getApplications_perm db user hrole
    have hmem : ∀ p, p ∈ l ↔ ∃ a ∈ db.applications, p = populateForEmployer db a
        ∧ a.status ≠ "rejected"
        ∧ ∃ job, Job.findById db.jobs a.jobId = some job ∧ job.employerId = user.userId := by
      intro p
      rw [hperm.mem_iff, List.mem_map]
      constructor
      · rintro ⟨a, ha, rfl⟩
        rw [mem_employerView] at ha
        exact ⟨a, ha.1, rfl, ha.2⟩
      · rintro ⟨a, ha, rfl, hrest⟩
        exact ⟨a, (mem_employerView db user.userId a).2 ⟨ha, hrest⟩, rfl⟩
    refine ⟨l, hl, hmem, ?_, by simpa using hperm.length_eq⟩
    intro p hp
    obtain ⟨a, _, rfl, hst, job, hjob, hown⟩ := (hmem p).1 hp
    exact ⟨hst, job.toRef, by simp [populateForEmployer, hjob], hown⟩
  · intro hrole
    obtain ⟨l, hl, hperm, _⟩ := getMyApplications_perm db user hrole
    refine ⟨l, hl, ?_, by simpa using hperm.length_eq⟩
    intro p
    rw [hperm.mem_iff, List.mem_map]
    constructor
    · rintro ⟨a, ha, rfl⟩
      rw [mem_seekerView] at ha
      exact ⟨a, ha.1, rfl, ha.2⟩
    · rintro ⟨a, ha, rfl, hrest⟩
      exact ⟨a, (mem_seekerView db user.userId a).2 ⟨ha, hrest⟩, rfl⟩

/-- C8 at a ledger with rejected applications: employer 1 is listed two applications, none
rejected and each for a job of employer 1; seeker 3 is listed all three of their
applications, the rejected one included. -/
theorem listings_visibility_witness :
    (∃ l, getApplications busyDb erin = Response.json l
      ∧ (∀ p ∈ l, p.status ≠ "rejected"
          ∧ ∃ job : JobRef, p.jobId = some job ∧ job.employerId = erin.userId)
      ∧ l.length = 2)
    ∧ (∃ l, getMyApplications busyDb sam = Response.json l ∧ l.length = 3) :=
  ⟨((listings_visibility busyDb erin).1 (by decide)).imp
      fun _ h => ⟨h.1, h.2.2.1, h.2.2.2.trans (by decide)⟩,
    ((listings_visibility busyDb sam).2 (by decide)).imp
      fun _ h => ⟨h.1, h.2.2.trans (by decide)⟩⟩

/-- C9: the employer listing and the seeker listing are each sorted by appliedAt, latest
first (every element is applied at or after every later element of the list; for the
employer listing this is the order left by the ownership filter, which runs after the
sort); and when the applications to list were made at three times t1 < t2 < t3, in
whatever order the ledger holds them, they are listed in the order t3, t2, t1. -/
theorem listings_sorted (db : Db) (user : ReqUser) :
    (user.role = "employer" →
      ∃ l, getApplications db user = Response.json l
        ∧ l.Pairwise (fun p q => p.appliedAt ≥ q.appliedAt)
        ∧ ∀ t1 t2 t3 : Date, t1 < t2 → t2 < t3 →
            ((employerView db user.userId).map (fun a => a.appliedAt)).Perm [t1, t2, t3] →
            l.map (fun p => p.appliedAt) = [t3, t2, t1])
    ∧ (user.role = "jobseeker" →
      ∃ l, getMyApplications db user = Response.json l
        ∧ l.Pairwise (fun p q => p.appliedAt ≥ q.appliedAt)
        ∧ ∀ t1 t2 t3 : Date, t1 < t2 → t2 < t3 →
            ((seekerView db user.userId).map (fun a => a.appliedAt)).Perm [t1, t2, t3] →
            l.map (fun p => p.appliedAt) = [t3, t2, t1]) := by
  have key : ∀ (ts : List Nat) (t1 t2 t3 : Nat), t1 < t2 → t2 < t3 →
      ts.Pairwise (fun x y => x ≥ y) → ts.Perm [t1, t2, t3] → ts = [t3, t2, t1] := by
    intro ts t1 t2 t3 h12 h23 hsorted hperm
    have hrev : ts.Perm [t3, t2, t1] :=
      hperm.trans (show [t1, t2, t3].Perm [t3, t2, t1] from List.reverse_perm [t3, t2, t1])
    have htarget : [t3, t2, t1].Pairwise (fun x y => x ≥ y) := by
      simp only [List.pairwise_cons, List.mem_cons, List.mem_singleton, List.not_mem_nil,
        or_false, forall_eq_or_imp, forall_eq, false_imp_iff, implies_true, and_true,
        List.Pairwise.nil]
      omega
    exact List.eq_of_perm_of_sorted hrev hsorted htarget
  refine ⟨?_, ?_⟩
  · intro hrole
    obtain ⟨l, hl, hperm, hsorted⟩ := getApplications_perm db user hrole
    refine ⟨l, hl, hsorted, ?_⟩
    intro t1 t2 t3 h12 h23 hview
    apply key _ t1 t2 t3 h12 h23
    · rw [List.pairwise_map]; exact hsorted
    · refine (hperm.map _).trans ?_
      simpa [List.map_map, Function.comp, populateForEmployer] using hview
  · intro hrole
    obtain ⟨l, hl, hperm, hsorted⟩ := getMyApplications_perm db user hrole
    refine ⟨l, hl, hsorted, ?_⟩
    intro t1 t2 t3 h12 h23 hview
    apply key _ t1 t2 t3 h12 h23
    · rw [List.pairwise_map]; exact hsorted
    · refine (hperm.map _).trans ?_
      simpa [List.map_map, Function.comp, populateForSeeker] using hview

/-- C9 at a ledger in which seeker 3 applied at times 7, 8 and 9: the seeker listing is in
the order 9, 8, 7. -/
theorem listings_sorted_witness :
    ∃ l, getMyApplications busyDb sam = Response.json l
      ∧ l.map (fun p => p.appliedAt) = [9, 8, 7] :=
  have h := (listings_sorted busyDb sam).2 (by decide)
  h.elim fun l hl => ⟨l, hl.1, hl.2.2 7 8 9 (by decide) (by decide) (by decide)⟩

/-! ## Failures of the status update (C10) -/

/-- C10: an update-application-status call is answered 403 when the actor is not an
employer, 400 when the actor is an employer and the requested status is not one of
pending / accepted / rejected, 404 when moreover no application has the id, and 403 when
the application and its job exist and the actor does not own the job; and every call
answered 400, 403 or 404 leaves the whole database, ledger and outbox, as it was. -/
theorem update_failure_no_effect (env : Env) (db : Db) (user : ReqUser) (id : ObjectId)
    (body : StatusBody) :
    (user.role ≠ "employer" → (updateApplicationStatus env db user id body).1.status = 403)
    ∧ (user.role = "employer" → body.status ∉ ["pending", "accepted", "rejected"] →
        (updateApplicationStatus env db user id body).1.status = 400)
    ∧ (user.role = "employer" → body.status ∈ ["pending", "accepted", "rejected"] →
        Application.findById db.applications id = none →
        (updateApplicationStatus env db user id body).1.status = 404)
    ∧ (∀ A job, user.role = "employer" →
        body.status ∈ ["pending", "accepted", "rejected"] →
        Application.findById db.applications id = some A →
        Job.findById db.jobs A.jobId = some job → job.employerId ≠ user.userId →
        (updateApplicationStatus env db user id body).1.status = 403)
    ∧ ((updateApplicationStatus env db user id body).1.status = 400
        ∨ (updateApplicationStatus env db user id body).1.status = 403
        ∨ (updateApplicationStatus env db user id body).1.status = 404 →
        (updateApplicationStatus env db user id body).2 = db
        ∧ (updateApplicationStatus env db user id body).2.applications = db.applications
        ∧ (updateApplicationStatus env db user id body).2.notifications
            = db.notifications) := by
  refine ⟨?_, ?_, ?_, ?_, ?_⟩
  · intro hrole
    simp [updateApplicationStatus, hrole, Response.fail]
  · intro hrole hs
    simp [updateApplicationStatus, hrole, hs, Response.fail]
  · intro hrole hs hA
    simp [updateApplicationStatus, hrole, hs, hA, Response.fail]
  · intro A job hrole hs hA hjob hown
    simp [updateApplicationStatus, hrole, hs, hA, populateAll, hjob, hown, Response.fail]
  · intro hcode
    have hdb : (updateApplicationStatus env db user id body).2 = db := by
      by_cases hrole : user.role = "employer"
      swap
      · simp [updateApplicationStatus, hrole]
      by_cases hs : body.status ∈ ["pending", "accepted", "rejected"]
      swap
      · simp [updateApplicationStatus, hrole, hs]
      cases hA : Application.findById db.applications id with
      | none => simp [updateApplicationStatus, hrole, hs, hA]
      | some A =>
        cases hjob : Job.findById db.jobs A.jobId with
        | none => simp [updateApplicationStatus, hrole, hs, hA, populateAll, hjob]
        | some job =>
          by_cases hown : job.employerId = user.userId
          swap
          · simp [updateApplicationStatus, hrole, hs, hA, populateAll, hjob, hown]
          exfalso
          rw [updateApplicationStatus_checked env db user id body A job hrole hs hA hjob
            hown] at hcode
          cases hsaveA : env.applicationSave <;>
            cases hseeker : User.findById db.users A.userId <;>
            cases hsaveN : env.notificationSave <;>
            simp [hsaveA, hseeker, hsaveN, Response.fail, Response.json] at hcode
    rw [hdb]
    exact ⟨rfl, rfl, rfl⟩

/-- C10 at the sample database: a job seeker, an invalid status, an unknown id and a
non-owner each leave the database as it was. -/
theorem update_failure_no_effect_witness :
    (updateApplicationStatus okEnv sampleDb sam 100 ⟨"accepted"⟩).1.status = 403
    ∧ (updateApplicationStatus okEnv sampleDb sam 100 ⟨"accepted"⟩).2 = sampleDb
    ∧ (updateApplicationStatus okEnv sampleDb erin 100 ⟨"archived"⟩).2 = sampleDb
    ∧ (updateApplicationStatus okEnv sampleDb erin 555 ⟨"accepted"⟩).2 = sampleDb
    ∧ (updateApplicationStatus okEnv sampleDb omar 100 ⟨"accepted"⟩).2 = sampleDb :=
  have hsam := update_failure_no_effect okEnv sampleDb sam 100 ⟨"accepted"⟩
  have hbad := update_failure_no_effect okEnv sampleDb erin 100 ⟨"archived"⟩
  have hnone := update_failure_no_effect okEnv sampleDb erin 555 ⟨"accepted"⟩
  have homar := update_failure_no_effect okEnv sampleDb omar 100 ⟨"accepted"⟩
  ⟨hsam.1 (by decide),
    (hsam.2.2.2.2 (Or.inr (Or.inl (hsam.1 (by decide))))).1,
    (hbad.2.2.2.2 (Or.inl (hbad.2.1 (by decide) (by decide)))).1,
    (hnone.2.2.2.2 (Or.inr (Or.inr (hnone.2.2.1 (by decide) (by decide) (by decide))))).1,
    (homar.2.2.2.2 (Or.inr (Or.inl (homar.2.2.2.1 sampleApplication
      ⟨10, "Engineer", "d", "q", "r", "Berlin", none, "Corp", 1, "Full-time", none, 5⟩
      (by decide) (by decide) (by decide) (by decide) (by decide))))).1⟩

/-! ## An application whose job has been deleted (C11) -/

/-- When the job of the application is no longer in the catalog, an employer asking for a
status among pending / accepted / rejected is answered 500, and the database is as
before. -/
theorem updateApplicationStatus_vanished_job (env : Env) (db : Db) (user : ReqUser)
    (id : ObjectId) (body : StatusBody) (A : Application)
    (hrole : user.role = "employer")
    (hs : body.status ∈ ["pending", "accepted", "rejected"])
    (hA : Application.findById db.applications id = some A)
    (hjob : Job.findById db.jobs A.jobId = none) :
    (updateApplicationStatus env db user id body).1.status = 500
    ∧ (updateApplicationStatus env db user id body).2 = db := by
  simp [updateApplicationStatus, hrole, hs, hA, populateAll, hjob, Response.fail]

/-- C11 fails on the code: after employer 1 has deleted job 10 (answer 200), application 100
refers to a job that is not in the catalog, and update-application-status(100, accepted)
by employer 1 is answered 500, a server error, not 404; the database is left as it was.
The employer listing, on the same database, skips the application. -/
theorem update_vanished_job_is_500 :
    (deleteJob true sampleDb erin 10).1.status = 200
    ∧ Application.findById orphanDb.applications 100 = some sampleApplication
    ∧ Job.findById orphanDb.jobs sampleApplication.jobId = none
    ∧ (updateApplicationStatus okEnv orphanDb erin 100 ⟨"accepted"⟩).1.status = 500
    ∧ (updateApplicationStatus okEnv orphanDb erin 100 ⟨"accepted"⟩).1.status ≠ 404
    ∧ (updateApplicationStatus okEnv orphanDb erin 100 ⟨"accepted"⟩).2 = orphanDb
    ∧ getApplications orphanDb erin = Response.json [] := by
  decide

/-! ## The profile allow-list (C12) -/

theorem obj_get_set (o : Obj) (key : String) (value : FieldValue) (k : String) :
    Obj.get (Obj.set o key value) k = if key = k then some value else Obj.get o k := by
  by_cases h : key = k
  · subst h
    simp [Obj.get, Obj.set, List.reverse_append]
  · have hb : (k == key) = false := by
      simpa using fun hk : k = key => h hk.symm
    simp [Obj.get, Obj.set, List.reverse_append, List.lookup_cons, h, hb]

theorem obj_mem_keys_iff (o : Obj) (k : String) :
    k ∈ Obj.keys o ↔ (Obj.get o k).isSome = true := by
  simp only [Obj.keys, Obj.get, List.mem_dedup, List.lookup_isSome_iff, List.mem_map,
    List.mem_reverse]
  constructor
  · rintro ⟨⟨k1, v⟩, hmem, rfl⟩
    exact ⟨(k1, v), hmem, by simp⟩
  · rintro ⟨⟨k1, v⟩, hmem, hk⟩
    exact ⟨(k1, v), hmem, by simpa using (beq_iff_eq.1 hk).symm⟩

theorem body_mem_keys_iff (b : Body) (k : String) :
    k ∈ Body.keys b ↔ (Body.get b k).isSome = true := by
  simp only [Body.keys, Body.get, List.lookup_isSome_iff, List.mem_map]
  constructor
  · rintro ⟨⟨k1, v⟩, hmem, rfl⟩
    exact ⟨(k1, v), hmem, by simp⟩
  · rintro ⟨⟨k1, v⟩, hmem, hk⟩
    exact ⟨(k1, v), hmem, by simpa using (beq_iff_eq.1 hk).symm⟩

/-- The object left by the `forEach` over a list of keys, `read` reading the body. -/
theorem get_body_loop (allowed : List String) (read : String → Option FieldValue)
    (keys : List String) (k : String) :
    Obj.get (keys.foldl (fun filtered key =>
        if key ∈ allowed then
          match read key with
          | some value => Obj.set filtered key value
          | none => filtered
        else filtered) []) k
      = if k ∈ keys ∧ k ∈ allowed then read k else none := by
  induction keys using List.reverseRecOn with
  | nil => simp [Obj.get]
  | append_singleton l a ih =>
    rw [List.foldl_append]
    simp only [List.foldl_cons, List.foldl_nil, List.mem_append, List.mem_singleton]
    by_cases ha : a ∈ allowed
    · cases hv : read a with
      | none =>
        simp only [ha, if_true, ih]
        by_cases hk : k = a
        · subst hk; simp [hv, ha]
        · simp [hk]
      | some v =>
        simp only [ha, if_true, obj_get_set, ih]
        by_cases hk : a = k
        · subst hk; simp [hv, ha]
        · have hk2 : ¬ k = a := fun h => hk h.symm
          simp [hk, hk2]
    · simp only [ha, if_false, ih]
      by_cases hk : k = a
      · subst hk; simp [ha]
      · simp [hk]

theorem uploadedFilename_concat (fs : List File) (f : File) (k : String) :
    uploadedFilename (fs ++ [f]) k
      = if f.fieldname = k then some (FieldValue.str f.filename)
        else uploadedFilename fs k := by
  unfold uploadedFilename
  rw [List.filter_append, List.getLast?_append]
  by_cases h : f.fieldname = k
  · simp [List.filter_cons, h]
  · simp [List.filter_cons, h]

/-- The object left by the `forEach` over the uploaded files. -/
theorem get_file_loop (allowed : List String) (acc : Obj) (files : List File) (k : String) :
    Obj.get (files.foldl (fun filtered file =>
        let withPhoto :=
          if file.fieldname = "photo" ∧ "photo" ∈ allowed then
            Obj.set filtered "photo" (FieldValue.str file.filename)
          else filtered
        if file.fieldname = "resume" ∧ "resume" ∈ allowed then
          Obj.set withPhoto "resume" (FieldValue.str file.filename)
        else withPhoto) acc) k
      = if (k = "photo" ∨ k = "resume") ∧ k ∈ allowed then
          (uploadedFilename files k).or (Obj.get acc k)
        else Obj.get acc k := by
  induction files using List.reverseRecOn with
  | nil => simp [uploadedFilename]
  | append_singleton fs f ih =>
    rw [List.foldl_append, uploadedFilename_concat]
    simp only [List.foldl_cons, List.foldl_nil]
    generalize List.foldl _ acc fs = R at ih ⊢
    have hne : ("photo" : String) ≠ "resume" := by decide
    by_cases hp : f.fieldname = "photo"
    · have hr : ¬ f.fieldname = "resume" := by rw [hp]; exact hne
      by_cases hap : "photo" ∈ allowed
      · by_cases hk : "photo" = k
        · subst hk; simp [hp, hr, hap, obj_get_set]
        · have hk2 : ¬ k = "photo" := fun h => hk h.symm
          simp [hp, hr, hap, obj_get_set, ih, hk, hk2]
      · by_cases hk : k = "photo"
        · subst hk; simp [hp, hr, hap, ih]
        · simp [hp, hr, hap, ih, hk, Ne.symm hk]
    · by_cases hr : f.fieldname = "resume"
      · by_cases har : "resume" ∈ allowed
        · by_cases hk : "resume" = k
          · subst hk; simp [hp, hr, har, obj_get_set]
          · have hk2 : ¬ k = "resume" := fun h => hk h.symm
            simp [hp, hr, har, obj_get_set, ih, hk, hk2]
        · by_cases hk : k = "resume"
          · subst hk; simp [hp, hr, har, ih]
          · simp [hp, hr, har, ih, hk, Ne.symm hk]
      · by_cases hk : (k = "photo" ∨ k = "resume") ∧ k ∈ allowed
        · have hf : ¬ f.fieldname = k := by
            rcases hk.1 with h | h
            · rw [h]; exact hp
            · rw [h]; exact hr
          simp [hp, hr, ih, hk, hf]
        · simp [hp, hr, ih, hk]

/-- The value of each key of `filteredUpdates`. -/
theorem get_filteredUpdates (role : String) (body : Body) (files : List File) (k : String) :
    Obj.get (filteredUpdates role body files) k
      = if k ∈ allowedUpdates role then
          if k = "photo" ∨ k = "resume" then (uploadedFilename files k).or (Body.get body k)
          else Body.get body k
        else none := by
  unfold filteredUpdates
  simp only []
  rw [get_file_loop, get_body_loop (allowedUpdates role) (Body.get body)]
  have hbody : (if k ∈ Body.keys body ∧ k ∈ allowedUpdates role then Body.get body k
        else none)
      = if k ∈ allowedUpdates role then Body.get body k else none := by
    by_cases hk : k ∈ Body.keys body
    · simp [hk]
    · have hnone : Body.get body k = none := by
        rw [body_mem_keys_iff] at hk
        simpa using hk
      simp [hk, hnone]
  rw [hbody]
  by_cases ha : k ∈ allowedUpdates role
  · by_cases hpr : k = "photo" ∨ k = "resume"
    · simp [ha, hpr]
    · simp [ha, hpr]
  · simp [ha]

theorem allowedUpdates_not_identity (role k : String) (hk : k ∈ allowedUpdates role) :
    k ≠ "email" ∧ k ≠ "password" ∧ k ≠ "role" := by
  unfold allowedUpdates at hk
  split_ifs at hk
  · simp only [List.mem_cons, List.mem_singleton, List.not_mem_nil, or_false] at hk
    rcases hk with rfl | rfl | rfl | rfl | rfl | rfl <;> decide
  · simp only [List.mem_cons, List.mem_singleton, List.not_mem_nil, or_false] at hk
    rcases hk with rfl | rfl | rfl | rfl | rfl | rfl | rfl <;> decide
  · simp at hk

theorem allowedUpdates_paths (role k : String) (hk : k ∈ allowedUpdates role) :
    k ∈ userPaths := by
  unfold allowedUpdates at hk
  split_ifs at hk
  · simp only [List.mem_cons, List.mem_singleton, List.not_mem_nil, or_false] at hk
    rcases hk with rfl | rfl | rfl | rfl | rfl | rfl <;> decide
  · simp only [List.mem_cons, List.mem_singleton, List.not_mem_nil, or_false] at hk
    rcases hk with rfl | rfl | rfl | rfl | rfl | rfl | rfl <;> decide
  · simp at hk

theorem mem_keys_filteredUpdates_allowed (role : String) (body : Body) (files : List File)
    (k : String) (hk : k ∈ Obj.keys (filteredUpdates role body files)) :
    k ∈ allowedUpdates role := by
  rw [obj_mem_keys_iff, get_filteredUpdates] at hk
  by_contra ha
  simp [ha] at hk

theorem assign_identity (ops : StringOps) (u : User) (key value : String)
    (h : key ≠ "email" ∧ key ≠ "password" ∧ key ≠ "role") :
    (User.assign ops u key value).identity = u.identity := by
  obtain ⟨h1, h2, h3⟩ := h
  unfold User.assign
  simp only [h1, h2, h3, if_false]
  split_ifs <;> rfl

theorem foldl_assign_identity (ops : StringOps) (update : Obj) (keys : List String) (u : User)
    (h : ∀ k ∈ keys, k ≠ "email" ∧ k ≠ "password" ∧ k ≠ "role") :
    (keys.foldl (fun doc key =>
        match Obj.get update key with
        | some (FieldValue.str value) => User.assign ops doc key value
        | _ => doc) u).identity = u.identity := by
  induction keys generalizing u with
  | nil => rfl
  | cons a rest ih =>
    simp only [List.foldl_cons]
    rw [ih _ (fun k hk => h k (List.mem_cons_of_mem _ hk))]
    cases Obj.get update a with
    | none => rfl
    | some v =>
      cases v with
      | other json => rfl
      | str value => exact assign_identity ops u a value (h a (List.mem_cons_self _ _))

theorem replaceOne_identity (users : List User) (id : ObjectId) (u doc : User)
    (hfind : User.findById users id = some u) (hdoc : doc.identity = u.identity) :
    (User.replaceOne users doc).map User.identity = users.map User.identity := by
  have hid : doc._id = id := by
    have h1 : doc._id = u._id := congrArg Prod.fst hdoc
    rw [h1]; exact findById_user_some hfind
  induction users with
  | nil => rfl
  | cons a rest ih =>
    unfold User.replaceOne
    by_cases ha : a._id = doc._id
    · have hb : (a._id == id) = true := by simpa [hid] using ha
      have hau : a = u := by
        simpa [User.findById, List.find?_cons, hb] using hfind
      subst hau
      simp [ha, hdoc]
    · have hb : (a._id == id) = false := by simpa [hid] using ha
      have h2 : User.findById rest id = some u := by
        simpa [User.findById, List.find?_cons, hb] using hfind
      simp [ha, ih h2]

theorem assign_not_path (ops : StringOps) (u : User) (key value : String)
    (h : key ∉ userPaths) : User.assign ops u key value = u := by
  simp only [userPaths, List.mem_cons, List.mem_singleton, List.not_mem_nil, or_false,
    not_or] at h
  obtain ⟨h1, h2, h3, h4, h5, h6, h7, h8, h9, h10, h11⟩ := h
  simp only [User.assign, h1, h2, h3, h4, h5, h6, h7, h8, h9, h10, h11, if_false]

theorem read_assign (ops : StringOps) (u : User) (key value k : String) :
    (User.assign ops u key value).read k
      = if k = key ∧ key ∈ userPaths then some (User.stored ops key value) else u.read k := by
  by_cases hp : key ∈ userPaths
  swap
  · simp [assign_not_path ops u key value hp, hp]
  by_cases hk : k = key
  · subst hk
    simp only [userPaths, List.mem_cons, List.mem_singleton, List.not_mem_nil, or_false] at hp
    rcases hp with rfl | rfl | rfl | rfl | rfl | rfl | rfl | rfl | rfl | rfl | rfl <;>
      simp [User.assign, User.read, User.stored, userPaths]
  · simp only [hk, false_and, if_false]
    simp only [userPaths, List.mem_cons, List.mem_singleton, List.not_mem_nil, or_false] at hp
    rcases hp with rfl | rfl | rfl | rfl | rfl | rfl | rfl | rfl | rfl | rfl | rfl <;>
      simp [User.assign, User.read, hk]

theorem read_foldl_assign (ops : StringOps) (update : Obj) (keys : List String) (u : User)
    (k : String) :
    (keys.foldl (fun doc key =>
        match Obj.get update key with
        | some (FieldValue.str value) => User.assign ops doc key value
        | _ => doc) u).read k
      = match (if k ∈ keys ∧ k ∈ userPaths then Obj.get update k else none) with
        | some (FieldValue.str v) => some (User.stored ops k v)
        | _ => u.read k := by
  induction keys using List.reverseRecOn with
  | nil => simp
  | append_singleton l a ih =>
    rw [List.foldl_append]
    simp only [List.foldl_cons, List.foldl_nil, List.mem_append, List.mem_singleton]
    generalize List.foldl _ u l = R at ih ⊢
    by_cases hk : k = a
    · subst hk
      cases hv : Obj.get update k with
      | none => simp [ih, hv]
      | some v =>
        cases v with
        | other json => simp [ih, hv]
        | str value =>
          by_cases hp : k ∈ userPaths
          · simp [read_assign, hp, hv]
          · simp [read_assign, hp, ih]
    · cases hv : Obj.get update a with
      | none => simp [ih, hk]
      | some v =>
        cases v with
        | other json => simp [ih, hk]
        | str value => simp [read_assign, ih, hk]

theorem findById_replaceOne (users : List User) (doc u : User)
    (hfind : User.findById users doc._id = some u) :
    User.findById (User.replaceOne users doc) doc._id = some doc
    ∧ ∀ id, id ≠ doc._id →
        User.findById (User.replaceOne users doc) id = User.findById users id := by
  induction users with
  | nil => simp [User.findById] at hfind
  | cons a rest ih =>
    unfold User.replaceOne
    by_cases ha : a._id = doc._id
    · refine ⟨by simp [User.findById, List.find?_cons, ha], ?_⟩
      intro id hid
      have hb : (a._id == id) = false := by
        simpa [ha] using fun h : doc._id = id => hid h.symm
      have hb2 : (doc._id == id) = false := by
        simpa using fun h : doc._id = id => hid h.symm
      simp [User.findById, List.find?_cons, ha, hb, hb2]
    · have hb : (a._id == doc._id) = false := by simpa using ha
      have h2 : User.findById rest doc._id = some u := by
        simpa [User.findById, List.find?_cons, hb] using hfind
      obtain ⟨ih1, ih2⟩ := ih h2
      refine ⟨?_, ?_⟩
      · simpa [User.findById, List.find?_cons, ha, hb] using ih1
      · intro id hid
        have := ih2 id hid
        by_cases hai : a._id = id
        · subst hai
          simp [User.findById, List.find?_cons, ha]
        · have hc : (a._id == id) = false := by simpa using hai
          simpa [User.findById, List.find?_cons, ha, hc] using this

/-- The store accepts the update document of `router.put('/')` exactly when every value of
it is a string. -/
theorem accepts_filteredUpdates (ops : StringOps) (role : String) (body : Body)
    (files : List File) :
    User.accepts ops (filteredUpdates role body files)
      = Obj.allStrings (filteredUpdates role body files) := by
  have point : ∀ k, k ∈ Obj.keys (filteredUpdates role body files) →
      (match Obj.get (filteredUpdates role body files) k with
        | some (FieldValue.str value) => User.validUpdate ops k value
        | some (FieldValue.other _) => decide (k ∉ userPaths)
        | none => true)
      = (match Obj.get (filteredUpdates role body files) k with
        | some (FieldValue.other _) => false
        | _ => true) := by
    intro k hk
    have ha := mem_keys_filteredUpdates_allowed role body files k hk
    obtain ⟨h1, h2, h3⟩ := allowedUpdates_not_identity role k ha
    have hp := allowedUpdates_paths role k ha
    cases Obj.get (filteredUpdates role body files) k with
    | none => rfl
    | some v =>
      cases v with
      | other json => simp [hp]
      | str value => simp [User.validUpdate, h1, h2, h3]
  have all : ∀ l : List String, (∀ k ∈ l, k ∈ Obj.keys (filteredUpdates role body files)) →
      l.all (fun key =>
        match Obj.get (filteredUpdates role body files) key with
        | some (FieldValue.str value) => User.validUpdate ops key value
        | some (FieldValue.other _) => decide (key ∉ userPaths)
        | none => true)
      = l.all (fun key =>
        match Obj.get (filteredUpdates role body files) key with
        | some (FieldValue.other _) => false
        | _ => true) := by
    intro l
    induction l with
    | nil => intro _; rfl
    | cons a rest ih =>
      intro h
      simp only [List.all_cons]
      rw [ih (fun k hk => h k (List.mem_cons_of_mem _ hk)), point a (h a (List.mem_cons_self _ _))]
  exact all _ (fun _ hk => hk)

/-- The equation of `router.put('/')` for a multipart request whose update holds strings
only, when the write reaches the store. -/
theorem updateProfile_stored (ops : StringOps) (db : Db) (user : ReqUser) (body : Body)
    (files : List File)
    (hstr : Obj.allStrings (filteredUpdates user.role body files) = true) :
    updateProfile ops true db user body (some files) =
      match User.findById db.users user.userId with
      | none => (Response.fail 404 "User not found", db)
      | some u =>
        let updated := (Obj.keys (filteredUpdates user.role body files)).foldl (fun doc key =>
          match Obj.get (filteredUpdates user.role body files) key with
          | some (FieldValue.str value) => User.assign ops doc key value
          | _ => doc) u
        (Response.json updated.toProfile,
          { db with users := User.replaceOne db.users updated }) := by
  unfold updateProfile User.findByIdAndUpdate
  simp only [accepts_filteredUpdates, hstr, if_true]
  cases User.findById db.users user.userId with
  | none => rfl
  | some u => rfl

/-- A multipart request whose update holds a value that is not a string is answered 500 and
the database is as before. -/
theorem updateProfile_rejected (ops : StringOps) (stored : Bool) (db : Db) (user : ReqUser)
    (body : Body) (files : List File)
    (hstr : Obj.allStrings (filteredUpdates user.role body files) = false) :
    updateProfile ops stored db user body (some files)
      = (Response.fail 500 "Server error", db) := by
  unfold updateProfile User.findByIdAndUpdate
  cases stored with
  | false => simp
  | true => simp [accepts_filteredUpdates, hstr]

/-- The document that `router.put('/')` stores for a user `u`. -/
theorem read_updated (ops : StringOps) (role : String) (body : Body) (files : List File)
    (u : User) (k : String) :
    ((Obj.keys (filteredUpdates role body files)).foldl (fun doc key =>
        match Obj.get (filteredUpdates role body files) key with
        | some (FieldValue.str value) => User.assign ops doc key value
        | _ => doc) u).read k
      = match Obj.get (filteredUpdates role body files) k with
        | some (FieldValue.str v) => some (User.stored ops k v)
        | _ => u.read k := by
  rw [read_foldl_assign]
  by_cases hk : k ∈ Obj.keys (filteredUpdates role body files)
  · have hp := allowedUpdates_paths role k
      (mem_keys_filteredUpdates_allowed role body files k hk)
    simp [hk, hp]
  · have hnone : Obj.get (filteredUpdates role body files) k = none := by
      rw [obj_mem_keys_iff] at hk
      simpa using hk
    simp [hk, hnone]

theorem uploadedFilename_isSome (files : List File) (k : String) :
    (uploadedFilename files k).isSome = true ↔ ∃ f ∈ files, f.fieldname = k := by
  unfold uploadedFilename
  rw [Option.isSome_map']
  constructor
  · intro h
    obtain ⟨f, hf⟩ := Option.isSome_iff_exists.1 h
    have hmem := List.mem_of_getLast?_eq_some hf
    rw [List.mem_filter] at hmem
    exact ⟨f, hmem.1, by simpa using hmem.2⟩
  · rintro ⟨f, hf, hk⟩
    have hmem : f ∈ files.filter (fun f => f.fieldname = k) := by
      rw [List.mem_filter]; exact ⟨hf, by simpa using hk⟩
    cases hl : (files.filter (fun f => f.fieldname = k)).getLast? with
    | some g => rfl
    | none =>
      rw [List.getLast?_eq_none_iff] at hl
      rw [hl] at hmem
      simp at hmem

theorem mem_keys_filteredUpdates (role : String) (body : Body) (files : List File)
    (k : String) :
    k ∈ Obj.keys (filteredUpdates role body files) ↔
      k ∈ allowedUpdates role
        ∧ (k ∈ Body.keys body
          ∨ ((k = "photo" ∨ k = "resume") ∧ ∃ f ∈ files, f.fieldname = k)) := by
  rw [obj_mem_keys_iff, get_filteredUpdates, body_mem_keys_iff, ← uploadedFilename_isSome]
  by_cases ha : k ∈ allowedUpdates role
  · by_cases hpr : k = "photo" ∨ k = "resume"
    · cases uploadedFilename files k <;> cases Body.get body k <;> simp [ha, hpr]
    · simp [ha, hpr]
  · simp [ha]

/-- Whatever the request, the `_id`, email, password and role of every user and the other
collections are as before. -/
theorem updateProfile_identity (ops : StringOps) (stored : Bool) (db : Db) (user : ReqUser)
    (body : Body) (files : Option (List File)) :
    (updateProfile ops stored db user body files).2.users.map User.identity
        = db.users.map User.identity
    ∧ (updateProfile ops stored db user body files).2.jobs = db.jobs
    ∧ (updateProfile ops stored db user body files).2.applications = db.applications
    ∧ (updateProfile ops stored db user body files).2.notifications = db.notifications := by
  cases files with
  | none => simp [updateProfile]
  | some fs =>
    cases hstr : Obj.allStrings (filteredUpdates user.role body fs) with
    | false => simp [updateProfile_rejected ops stored db user body fs hstr]
    | true =>
      cases stored with
      | false => simp [updateProfile]
      | true =>
        rw [updateProfile_stored ops db user body fs hstr]
        cases hu : User.findById db.users user.userId with
        | none => simp
        | some u =>
          refine ⟨?_, rfl, rfl, rfl⟩
          exact replaceOne_identity db.users user.userId u _ hu
            (foldl_assign_identity ops _ _ u (fun k hk =>
              allowedUpdates_not_identity user.role k
                (mem_keys_filteredUpdates_allowed user.role body fs k hk)))

/-- C12, as stated, fails. A job seeker who sends a multipart request with an empty body and
a file under the field name photo gets the field photo written, with the filename of the
upload, although photo is not a key of the body (and counting the field names of the files
among the keys of the body does not help: a file uploaded under name, which is in the
allow-list, is not written). A request that is not multipart, with the allowed key name in
its body, is answered 500 and nothing is written; so is a multipart request in which the
field name was sent twice. -/
theorem update_profile_upload_without_body_key :
    Body.keys emptyBody = []
    ∧ Obj.keys (filteredUpdates "jobseeker" emptyBody [⟨"name", "name-18.png"⟩]) = []
    ∧ Obj.keys (filteredUpdates "jobseeker" emptyBody [⟨"photo", "photo-17.png"⟩]) = ["photo"]
    ∧ (updateProfile plainOps true sampleDb sam emptyBody
        (some [⟨"photo", "photo-17.png"⟩])).1.status = 200
    ∧ (User.findById sampleDb.users 3).map (fun u => u.photo) = some none
    ∧ (User.findById
        (updateProfile plainOps true sampleDb sam emptyBody
          (some [⟨"photo", "photo-17.png"⟩])).2.users
        3).map (fun u => u.photo) = some (some "photo-17.png")
    ∧ "name" ∈ Body.keys renameBody
    ∧ (updateProfile plainOps true sampleDb sam renameBody none).1.status = 500
    ∧ (updateProfile plainOps true sampleDb sam renameBody none).2 = sampleDb
    ∧ "name" ∈ Body.keys repeatedNameBody
    ∧ (updateProfile plainOps true sampleDb sam repeatedNameBody (some [])).1.status = 500
    ∧ (updateProfile plainOps true sampleDb sam repeatedNameBody (some [])).2 = sampleDb := by
  decide

/-- C12, amended: the allow-list is name, resume, photo, phone, address, linkedin for a job
seeker and name, company, companyDescription, photo, phone, address, linkedin for an
employer. For a multipart request, the keys of the update that update-profile hands to the
store are exactly the keys of the allow-list of the actor's role that are keys of the body
or, for photo and resume, the field name of an uploaded file; the value of such a key is
the filename of the last file uploaded under it when there is one (photo and resume only)
and the body's value otherwise; every other key is absent from the update. Whatever the
request, the `_id`, email, password and role of every user, and the other collections, are
as before. A request that is not multipart is answered 500 and the database is as before;
so is a multipart request whose update holds a value that is not a string, or whose
write does not reach the store; with strings only and the write reaching the store, a
request of an actor without a user is answered 404, the database as before. When every
value of the update is a string, the write reaches the store and the actor's user exists,
the answer is 200, whatever other keys the body has, and the stored user has each path of
the update set to its value as the setter of the path leaves it (trimmed, except for resume
and photo) and every other path as before; the other users are as before. -/
theorem update_profile_allow_list (ops : StringOps) (stored : Bool) (db : Db)
    (user : ReqUser) (body : Body) (files : List File) :
    allowedUpdates "jobseeker" = ["name", "resume", "photo", "phone", "address", "linkedin"]
    ∧ allowedUpdates "employer"
        = ["name", "company", "companyDescription", "photo", "phone", "address", "linkedin"]
    ∧ (∀ k, k ∈ Obj.keys (filteredUpdates user.role body files) ↔
        k ∈ allowedUpdates user.role
          ∧ (k ∈ Body.keys body
            ∨ ((k = "photo" ∨ k = "resume") ∧ ∃ f ∈ files, f.fieldname = k)))
    ∧ (∀ k, k ∈ allowedUpdates user.role →
        Obj.get (filteredUpdates user.role body files) k
          = if k = "photo" ∨ k = "resume" then
              (uploadedFilename files k).or (Body.get body k)
            else Body.get body k)
    ∧ (∀ k, k ∉ allowedUpdates user.role →
        Obj.get (filteredUpdates user.role body files) k = none)
    ∧ (∀ request : Option (List File),
        (updateProfile ops stored db user body request).2.users.map User.identity
          = db.users.map User.identity
        ∧ (updateProfile ops stored db user body request).2.jobs = db.jobs
        ∧ (updateProfile ops stored db user body request).2.applications = db.applications
        ∧ (updateProfile ops stored db user body request).2.notifications
          = db.notifications)
    ∧ ((updateProfile ops stored db user body none).1.status = 500
        ∧ (updateProfile ops stored db user body none).2 = db)
    ∧ (Obj.allStrings (filteredUpdates user.role body files) = false →
        (updateProfile ops stored db user body (some files)).1.status = 500
        ∧ (updateProfile ops stored db user body (some files)).2 = db)
    ∧ (stored = false →
        (updateProfile ops stored db user body (some files)).1.status = 500
        ∧ (updateProfile ops stored db user body (some files)).2 = db)
    ∧ (stored = true → Obj.allStrings (filteredUpdates user.role body files) = true →
        User.findById db.users user.userId = none →
        (updateProfile ops stored db user body (some files)).1.status = 404
        ∧ (updateProfile ops stored db user body (some files)).2 = db)
    ∧ (stored = true → Obj.allStrings (filteredUpdates user.role body files) = true →
        ∀ u, User.findById db.users user.userId = some u →
        (updateProfile ops stored db user body (some files)).1.status = 200
        ∧ ∃ updated : User,
            User.findById (updateProfile ops stored db user body (some files)).2.users
              user.userId = some updated
            ∧ (updateProfile ops stored db user body (some files)).1.payload
              = some updated.toProfile
            ∧ (∀ k, updated.read k
                = match Obj.get (filteredUpdates user.role body files) k with
                  | some (FieldValue.str v) => some (User.stored ops k v)
                  | _ => u.read k)
            ∧ ∀ id, id ≠ user.userId →
                User.findById (updateProfile ops stored db user body (some files)).2.users id
                  = User.findById db.users id) := by
  refine ⟨by decide, by decide, mem_keys_filteredUpdates user.role body files, ?_, ?_,
    updateProfile_identity ops stored db user body, ?_, ?_, ?_, ?_, ?_⟩
  · intro k hk
    rw [get_filteredUpdates]
    simp [hk]
  · intro k hk
    rw [get_filteredUpdates]
    simp [hk]
  · simp [updateProfile, Response.fail]
  · intro hstr
    rw [updateProfile_rejected ops stored db user body files hstr]
    exact ⟨rfl, rfl⟩
  · intro hstored
    subst hstored
    simp [updateProfile, Response.fail]
  · intro hstored hstr hu
    subst hstored
    rw [updateProfile_stored ops db user body files hstr]
    simp [hu, Response.fail]
  · intro hstored hstr u hu
    subst hstored
    rw [updateProfile_stored ops db user body files hstr]
    simp only [hu]
    have hid : ((Obj.keys (filteredUpdates user.role body files)).foldl (fun doc key =>
        match Obj.get (filteredUpdates user.role body files) key with
        | some (FieldValue.str value) => User.assign ops doc key value
        | _ => doc) u)._id = user.userId := by
      have h1 := congrArg Prod.fst
        (foldl_assign_identity ops (filteredUpdates user.role body files)
          (Obj.keys (filteredUpdates user.role body files)) u (fun k hk =>
            allowedUpdates_not_identity user.role k
              (mem_keys_filteredUpdates_allowed user.role body files k hk)))
      exact h1.trans (findById_user_some hu)
    have hrep := findById_replaceOne db.users _ u (by rw [hid]; exact hu)
    rw [hid] at hrep
    exact ⟨rfl, _, hrep.1, rfl, read_updated ops user.role body files u, hrep.2⟩

/-- The amended C12 at the sample database: seeker 3 sends role, email and name in a
multipart request, and the answer is 200 with the name written and the role and email as
they were. -/
theorem update_profile_allow_list_witness :
    (updateProfile plainOps true sampleDb sam renameBody (some [])).1.status = 200
    ∧ ∃ updated : User,
        User.findById (updateProfile plainOps true sampleDb sam renameBody (some [])).2.users 3
          = some updated
        ∧ updated.read "role" = some "jobseeker"
        ∧ updated.read "email" = some "sam@mail.io"
        ∧ updated.read "name" = some "Sam S" :=
  have h := (update_profile_allow_list plainOps true sampleDb sam renameBody
    []).2.2.2.2.2.2.2.2.2.2
    rfl (by decide)
    ⟨3, "sam@mail.io", "secret3", "jobseeker", some "Sam", none, none, none, none, none,
      none, none, 0⟩
    (by decide)
  ⟨h.1, h.2.elim fun updated hu =>
    ⟨updated, hu.1, (hu.2.2.1 "role").trans (by decide), (hu.2.2.1 "email").trans (by decide),
      (hu.2.2.1 "name").trans (by decide)⟩⟩

end JobBackend
